import Mathlib

/-
Verification of the NaturalCapitalFhe contract (embedded at the end of
src/frontend/web/src/App.tsx, `contract NaturalCapitalFhe`).

Modelling choices, each justified against the source:
* Addresses, batch ids, request ids, timestamps and uint256 counters are Nat.
  No arithmetic in the contract can overflow a uint256 in any claim below
  (counters only ever grow by 1 per call), so Nat is a faithful model.
* An `euint32` value is an opaque ciphertext handle (a bytes32 in fhevm).
  We model it by the inductive type `Handle`: `Handle.uninit` is the zero
  handle of an uninitialized `euint32` slot, `Handle.ct n` is an externally
  supplied ciphertext handle, and `Handle.add a b` is the fresh handle
  returned by `FHE.add(a, b)` (fhevm derives it injectively from the two
  argument handles; it is never the zero handle and never equal to one of
  its arguments, which the model reflects structurally).
  `FHE.isInit` models `FHE.isInitialized` (handle is nonzero).
* `keccak256(abi.encode(cts, address(this)))` in `_hashCiphertexts` is
  modelled by the injective constructor `HashVal.keccak cts addr`;
  `HashVal.zero` is the default bytes32(0) stored in an untouched
  `DecryptionContext.stateHash` slot.  This is the standard
  collision-free model of a cryptographic hash.
* Solidity mappings are total functions with the type's default value;
  `batchAssets` and `decryptionContexts` use `Option` so that a slot that
  was never written is observable (`none` reads back as the defaulted
  struct via `Option.getD`).
* A revert is modelled by `Except.error`; the wrapper `exec` restores the
  pre-call state on error, which is exactly Solidity's rollback semantics
  (no state change, no events).
* `FHE.requestDecryption` returns an oracle-chosen request id; the id is
  passed as an argument of the request call (external nondeterminism
  resolved by the call).  `FHE.checkSignatures(requestId, cleartexts, proof)`
  reverts on a bad proof; the verdict of that external check is the
  boolean `sig` argument of the callback call, and the two uint32 words
  that `abi.decode(cleartexts, (uint32, uint32))` yields are the two Nat
  arguments of the callback call.
-/

inductive Handle where
  | uninit : Handle
  | ct : Nat → Handle
  | add : Handle → Handle → Handle
deriving DecidableEq, Repr

namespace FHE

/-- Model of `FHE.isInitialized`: a handle is live iff it is not the zero handle. -/
def isInit : Handle → Bool
  | Handle.uninit => false
  | _ => true

end FHE

/-- Struct `AssetData` of the contract. -/
structure AssetData where
  encryptedArea : Handle
  encryptedHealthIndex : Handle
  encryptedCarbonSequestration : Handle
  encryptedBiodiversityIndex : Handle
  ownerAddress : Nat
deriving DecidableEq, Repr

/-- Model of bytes32 values used as state commitments: either the default
bytes32(0) of an untouched storage slot, or a keccak256 digest of an
abi-encoded ciphertext-handle list together with `address(this)`. -/
inductive HashVal where
  | zero : HashVal
  | keccak : List Handle → Nat → HashVal
deriving DecidableEq, Repr

/-- Struct `DecryptionContext` of the contract. -/
structure DecryptionContext where
  batchId : Nat
  stateHash : HashVal
  processed : Bool
deriving DecidableEq, Repr

/-- The defaulted `DecryptionContext` struct read from an untouched mapping slot. -/
def defaultCtx : DecryptionContext := { batchId := 0, stateHash := HashVal.zero, processed := false }

/-- The defaulted `AssetData` struct read from an untouched mapping slot. -/
def defaultAsset : AssetData :=
  { encryptedArea := Handle.uninit
    encryptedHealthIndex := Handle.uninit
    encryptedCarbonSequestration := Handle.uninit
    encryptedBiodiversityIndex := Handle.uninit
    ownerAddress := 0 }

/-- Events declared by the contract. -/
inductive Event where
  | OwnershipTransferred (previousOwner newOwner : Nat)
  | ProviderAdded (provider : Nat)
  | ProviderRemoved (provider : Nat)
  | Paused (account : Nat)
  | Unpaused (account : Nat)
  | CooldownSecondsChanged (oldCooldown newCooldown : Nat)
  | BatchOpened (batchId : Nat)
  | BatchClosed (batchId : Nat)
  | AssetSubmitted (provider batchId assetIndex : Nat)
  | DecryptionRequested (requestId batchId : Nat)
  | DecryptionCompleted (requestId batchId totalArea totalCarbonSequestration : Nat)
deriving DecidableEq, Repr

/-- Custom errors declared by the contract, plus `RequireViolation` for the
string-message `require` in `setCooldownSeconds`. -/
inductive Err where
  | NotOwner
  | NotProvider
  | PausedError
  | CooldownActive
  | BatchClosedOrInvalid
  | InvalidBatchId
  | ReplayAttempt
  | StateMismatch
  | InvalidProof
  | RequireViolation
deriving DecidableEq, Repr

/-- Storage of the contract.  `thisAddr` is `address(this)`, fixed at
deployment and read by `_hashCiphertexts`. -/
structure ContractState where
  thisAddr : Nat
  owner : Nat
  isProvider : Nat → Bool
  paused : Bool
  cooldownSeconds : Nat
  lastSubmissionTime : Nat → Nat
  lastDecryptionRequestTime : Nat → Nat
  currentBatchId : Nat
  isBatchOpen : Nat → Bool
  assetCountInBatch : Nat → Nat
  batchAssets : Nat × Nat → Option AssetData
  decryptionContexts : Nat → Option DecryptionContext

/-- Pointwise update of a mapping. -/
def mapSet {κ α : Type} [DecidableEq κ] (f : κ → α) (k : κ) (v : α) : κ → α :=
  fun x => if x = k then v else f x

@[simp] lemma mapSet_self {κ α : Type} [DecidableEq κ] (f : κ → α) (k : κ) (v : α) :
    mapSet f k v k = v := by
  simp [mapSet]

lemma mapSet_ne {κ α : Type} [DecidableEq κ] (f : κ → α) (k : κ) (v : α) {x : κ}
    (h : x ≠ k) : mapSet f k v x = f x := by
  simp [mapSet, h]

/-- The constructor: deployer becomes owner, batch 1 is opened, default cooldown 60s. -/
def initState (deployer addr : Nat) : ContractState :=
  { thisAddr := addr
    owner := deployer
    isProvider := fun _ => false
    paused := false
    cooldownSeconds := 60
    lastSubmissionTime := fun _ => 0
    lastDecryptionRequestTime := fun _ => 0
    currentBatchId := 1
    isBatchOpen := mapSet (fun _ => false) 1 true
    assetCountInBatch := fun _ => 0
    batchAssets := fun _ => none
    decryptionContexts := fun _ => none }

/-- Function `transferOwnership` of the contract. -/
def transferOwnership (st : ContractState) (sender newOwner : Nat) :
    Except Err (ContractState × List Event) :=
  if sender ≠ st.owner then Except.error Err.NotOwner
  else Except.ok ({ st with owner := newOwner }, [Event.OwnershipTransferred st.owner newOwner])

/-- Function `addProvider` of the contract.  Note: `onlyOwner` but not pause-gated. -/
def addProvider (st : ContractState) (sender provider : Nat) :
    Except Err (ContractState × List Event) :=
  if sender ≠ st.owner then Except.error Err.NotOwner
  else Except.ok ({ st with isProvider := mapSet st.isProvider provider true },
    [Event.ProviderAdded provider])

/-- Function `removeProvider` of the contract. -/
def removeProvider (st : ContractState) (sender provider : Nat) :
    Except Err (ContractState × List Event) :=
  if sender ≠ st.owner then Except.error Err.NotOwner
  else Except.ok ({ st with isProvider := mapSet st.isProvider provider false },
    [Event.ProviderRemoved provider])

/-- Function `setPaused` of the contract. -/
def setPaused (st : ContractState) (sender : Nat) (flag : Bool) :
    Except Err (ContractState × List Event) :=
  if sender ≠ st.owner then Except.error Err.NotOwner
  else if flag then Except.ok ({ st with paused := true }, [Event.Paused sender])
  else Except.ok ({ st with paused := false }, [Event.Unpaused sender])

/-- Function `setCooldownSeconds` of the contract. -/
def setCooldownSeconds (st : ContractState) (sender v : Nat) :
    Except Err (ContractState × List Event) :=
  if sender ≠ st.owner then Except.error Err.NotOwner
  else if v = 0 then Except.error Err.RequireViolation
  else Except.ok ({ st with cooldownSeconds := v },
    [Event.CooldownSecondsChanged st.cooldownSeconds v])

/-- Function `openNewBatch` of the contract: `onlyOwner whenNotPaused`. -/
def openNewBatch (st : ContractState) (sender : Nat) :
    Except Err (ContractState × List Event) :=
  if sender ≠ st.owner then Except.error Err.NotOwner
  else if st.paused then Except.error Err.PausedError
  else Except.ok ({ st with
      currentBatchId := st.currentBatchId + 1
      isBatchOpen := mapSet st.isBatchOpen (st.currentBatchId + 1) true },
    [Event.BatchOpened (st.currentBatchId + 1)])

/-- Function `closeBatch` of the contract: `onlyOwner`, no pause gate. -/
def closeBatch (st : ContractState) (sender batchId : Nat) :
    Except Err (ContractState × List Event) :=
  if sender ≠ st.owner then Except.error Err.NotOwner
  else if st.isBatchOpen batchId = false then Except.error Err.BatchClosedOrInvalid
  else Except.ok ({ st with isBatchOpen := mapSet st.isBatchOpen batchId false },
    [Event.BatchClosed batchId])

/-- Function `submitAsset` of the contract:
`onlyProvider whenNotPaused respectCooldown(msg.sender, lastSubmissionTime)`,
then the open-batch check and the sequential append. -/
def submitAsset (st : ContractState) (sender now : Nat)
    (encryptedArea encryptedHealthIndex encryptedCarbonSequestration encryptedBiodiversityIndex : Handle) :
    Except Err (ContractState × List Event) :=
  if st.isProvider sender = false then Except.error Err.NotProvider
  else if st.paused then Except.error Err.PausedError
  else if now < st.lastSubmissionTime sender + st.cooldownSeconds then Except.error Err.CooldownActive
  else if st.isBatchOpen st.currentBatchId = false then Except.error Err.BatchClosedOrInvalid
  else
    let assetIndex := st.assetCountInBatch st.currentBatchId
    Except.ok ({ st with
        batchAssets := mapSet st.batchAssets (st.currentBatchId, assetIndex)
          (some { encryptedArea := encryptedArea
                  encryptedHealthIndex := encryptedHealthIndex
                  encryptedCarbonSequestration := encryptedCarbonSequestration
                  encryptedBiodiversityIndex := encryptedBiodiversityIndex
                  ownerAddress := sender })
        assetCountInBatch := mapSet st.assetCountInBatch st.currentBatchId (assetIndex + 1)
        lastSubmissionTime := mapSet st.lastSubmissionTime sender now },
      [Event.AssetSubmitted sender st.currentBatchId assetIndex])

/-- Read `batchAssets[b][i]` with Solidity's defaulted-struct semantics. -/
def readAsset (st : ContractState) (b i : Nat) : AssetData :=
  (st.batchAssets (b, i)).getD defaultAsset

/-- One iteration of the aggregation loop shared verbatim by
`requestBatchSummaryDecryption` and `myCallback`: if the area accumulator
is not yet an initialized handle, seed both accumulators from the current
asset and set the `initialized` flag, else homomorphically add the
current asset's area and carbon-sequestration ciphertexts. -/
def aggStep (acc : Handle × Handle × Bool) (x : AssetData) : Handle × Handle × Bool :=
  if FHE.isInit acc.1 = false then
    (x.encryptedArea, x.encryptedCarbonSequestration, true)
  else
    (Handle.add acc.1 x.encryptedArea, Handle.add acc.2.1 x.encryptedCarbonSequestration, acc.2.2)

/-- The aggregation loop `for (i = 0; i < assetCountInBatch[batchId]; i++)`
of the contract, returning `(totalEncryptedArea,
totalEncryptedCarbonSequestration, initializedFlag)`. -/
def aggregateBatch (st : ContractState) (b : Nat) : Handle × Handle × Bool :=
  (List.range (st.assetCountInBatch b)).foldl
    (fun acc i => aggStep acc (readAsset st b i)) (Handle.uninit, Handle.uninit, false)

/-- Function `requestBatchSummaryDecryption` of the contract:
`whenNotPaused respectCooldown(msg.sender, lastDecryptionRequestTime)`,
then emptiness check, aggregation, commitment, oracle request (the oracle
returns `rid`), context persistence and cooldown stamp. -/
def requestBatchSummaryDecryption (st : ContractState) (sender now rid b : Nat) :
    Except Err (ContractState × List Event) :=
  if st.paused then Except.error Err.PausedError
  else if now < st.lastDecryptionRequestTime sender + st.cooldownSeconds then
    Except.error Err.CooldownActive
  else if st.assetCountInBatch b = 0 then Except.error Err.InvalidBatchId
  else
    let agg := aggregateBatch st b
    if agg.2.2 = false then Except.error Err.InvalidBatchId
    else
      let stateHash := HashVal.keccak [agg.1, agg.2.1] st.thisAddr
      Except.ok ({ st with
          decryptionContexts := mapSet st.decryptionContexts rid
            (some { batchId := b, stateHash := stateHash, processed := false })
          lastDecryptionRequestTime := mapSet st.lastDecryptionRequestTime sender now },
        [Event.DecryptionRequested rid b])

/-- Function `myCallback` of the contract: replay guard, recomputation of
the aggregate at callback time, state-hash comparison, proof check
(`FHE.checkSignatures`, verdict `sig`), then finalization.  `c1, c2` are
the two uint32 words decoded from `cleartexts`. -/
def myCallback (st : ContractState) (rid c1 c2 : Nat) (sig : Bool) :
    Except Err (ContractState × List Event) :=
  let ctx := (st.decryptionContexts rid).getD defaultCtx
  if ctx.processed then Except.error Err.ReplayAttempt
  else
    let agg := aggregateBatch st ctx.batchId
    if agg.2.2 = false then Except.error Err.InvalidBatchId
    else
      let currentHash := HashVal.keccak [agg.1, agg.2.1] st.thisAddr
      if currentHash ≠ ctx.stateHash then Except.error Err.StateMismatch
      else if sig = false then Except.error Err.InvalidProof
      else Except.ok ({ st with
          decryptionContexts := mapSet st.decryptionContexts rid
            (some { ctx with processed := true }) },
        [Event.DecryptionCompleted rid ctx.batchId c1 c2])

/-- External calls into the contract.  Each carries `msg.sender` and, where
the code reads it, `block.timestamp`; the request call also carries the
oracle-chosen request id, and the callback call carries the decoded
cleartext words and the verdict of `FHE.checkSignatures`. -/
inductive Call where
  | transferOwnership (sender newOwner : Nat)
  | addProvider (sender provider : Nat)
  | removeProvider (sender provider : Nat)
  | setPaused (sender : Nat) (flag : Bool)
  | setCooldownSeconds (sender v : Nat)
  | openNewBatch (sender : Nat)
  | closeBatch (sender batchId : Nat)
  | submitAsset (sender now : Nat) (a h c bio : Handle)
  | requestBatchSummaryDecryption (sender now rid b : Nat)
  | myCallback (rid c1 c2 : Nat) (sig : Bool)
deriving DecidableEq, Repr

/-- Dispatch a call to the contract function it names. -/
def dispatch (st : ContractState) : Call → Except Err (ContractState × List Event)
  | Call.transferOwnership s n => transferOwnership st s n
  | Call.addProvider s p => addProvider st s p
  | Call.removeProvider s p => removeProvider st s p
  | Call.setPaused s f => setPaused st s f
  | Call.setCooldownSeconds s v => setCooldownSeconds st s v
  | Call.openNewBatch s => openNewBatch st s
  | Call.closeBatch s b => closeBatch st s b
  | Call.submitAsset s now a h c bio => submitAsset st s now a h c bio
  | Call.requestBatchSummaryDecryption s now rid b => requestBatchSummaryDecryption st s now rid b
  | Call.myCallback rid c1 c2 sig => myCallback st rid c1 c2 sig

/-- Execute a call with Solidity rollback semantics: a revert leaves the
state unchanged and emits no events. -/
def exec (st : ContractState) (c : Call) : ContractState × Option Err × List Event :=
  match dispatch st c with
  | Except.ok (st2, evs) => (st2, none, evs)
  | Except.error e => (st, some e, [])

/-- The post-state of a call (reverted calls leave the state unchanged). -/
def stepState (st : ContractState) (c : Call) : ContractState :=
  (exec st c).1

/-- Run a sequence of calls. -/
def run (st : ContractState) (cs : List Call) : ContractState :=
  cs.foldl stepState st

/-- States reachable from deployment by some sequence of calls. -/
inductive Reachable : ContractState → Prop where
  | init (deployer addr : Nat) : Reachable (initState deployer addr)
  | step (st : ContractState) (c : Call) : Reachable st → Reachable (stepState st c)

/-- The asset records of batch `b` in storage order. -/
def assetsList (st : ContractState) (b : Nat) : List AssetData :=
  (List.range (st.assetCountInBatch b)).map (readAsset st b)

/-- Aggregation as the spec's §4.4 words describe it (for comparison with
`aggregateBatch`): fail on an empty batch, otherwise seed both
accumulators from the first asset and fold homomorphic addition over the
remaining assets in ascending index order, touching only the area and
carbon-sequestration fields. -/
def specAggregate (l : List AssetData) : Option (Handle × Handle) :=
  match l with
  | [] => none
  | x :: rest => some (rest.foldl
      (fun p y => (Handle.add p.1 y.encryptedArea, Handle.add p.2 y.encryptedCarbonSequestration))
      (x.encryptedArea, x.encryptedCarbonSequestration))

/-- Does this call store a decryption context under request id `rid`?
Only `requestBatchSummaryDecryption` creates or overwrites contexts. -/
def assignsRid (rid : Nat) : Call → Bool
  | Call.requestBatchSummaryDecryption _ _ r _ => r = rid
  | _ => false

/-- A reverted call returns the pre-call state and no events. -/
lemma exec_fail (st : ContractState) (c : Call) (e : Err)
    (h : (exec st c).2.1 = some e) : exec st c = (st, some e, []) := by
  unfold exec at h ⊢
  cases hd : dispatch st c with
  | ok p => rw [hd] at h; simp at h
  | error e2 => rw [hd] at h; simp at h; simp [h]

lemma exec_transferOwnership (st : ContractState) (s n : Nat) :
    exec st (Call.transferOwnership s n) =
      if s ≠ st.owner then (st, some Err.NotOwner, [])
      else ({ st with owner := n }, none, [Event.OwnershipTransferred st.owner n]) := by
  by_cases h1 : s = st.owner <;> simp [exec, dispatch, transferOwnership, h1]

lemma exec_addProvider (st : ContractState) (s p : Nat) :
    exec st (Call.addProvider s p) =
      if s ≠ st.owner then (st, some Err.NotOwner, [])
      else ({ st with isProvider := mapSet st.isProvider p true }, none,
        [Event.ProviderAdded p]) := by
  by_cases h1 : s = st.owner <;> simp [exec, dispatch, addProvider, h1]

lemma exec_removeProvider (st : ContractState) (s p : Nat) :
    exec st (Call.removeProvider s p) =
      if s ≠ st.owner then (st, some Err.NotOwner, [])
      else ({ st with isProvider := mapSet st.isProvider p false }, none,
        [Event.ProviderRemoved p]) := by
  by_cases h1 : s = st.owner <;> simp [exec, dispatch, removeProvider, h1]

lemma exec_setPaused (st : ContractState) (s : Nat) (f : Bool) :
    exec st (Call.setPaused s f) =
      if s ≠ st.owner then (st, some Err.NotOwner, [])
      else if f then ({ st with paused := true }, none, [Event.Paused s])
      else ({ st with paused := false }, none, [Event.Unpaused s]) := by
  by_cases h1 : s = st.owner <;> cases f <;> simp [exec, dispatch, setPaused, h1]

lemma exec_setCooldownSeconds (st : ContractState) (s v : Nat) :
    exec st (Call.setCooldownSeconds s v) =
      if s ≠ st.owner then (st, some Err.NotOwner, [])
      else if v = 0 then (st, some Err.RequireViolation, [])
      else ({ st with cooldownSeconds := v }, none,
        [Event.CooldownSecondsChanged st.cooldownSeconds v]) := by
  by_cases h1 : s = st.owner <;> by_cases h2 : v = 0 <;>
    simp [exec, dispatch, setCooldownSeconds, h1, h2]

lemma exec_openNewBatch (st : ContractState) (s : Nat) :
    exec st (Call.openNewBatch s) =
      if s ≠ st.owner then (st, some Err.NotOwner, [])
      else if st.paused then (st, some Err.PausedError, [])
      else ({ st with
          currentBatchId := st.currentBatchId + 1
          isBatchOpen := mapSet st.isBatchOpen (st.currentBatchId + 1) true }, none,
        [Event.BatchOpened (st.currentBatchId + 1)]) := by
  by_cases h1 : s = st.owner <;> by_cases h2 : st.paused = true <;>
    simp [exec, dispatch, openNewBatch, h1, h2]

lemma exec_closeBatch (st : ContractState) (s b : Nat) :
    exec st (Call.closeBatch s b) =
      if s ≠ st.owner then (st, some Err.NotOwner, [])
      else if st.isBatchOpen b = false then (st, some Err.BatchClosedOrInvalid, [])
      else ({ st with isBatchOpen := mapSet st.isBatchOpen b false }, none,
        [Event.BatchClosed b]) := by
  by_cases h1 : s = st.owner <;> by_cases h2 : st.isBatchOpen b = false <;>
    simp [exec, dispatch, closeBatch, h1, h2]

lemma exec_submitAsset (st : ContractState) (s now : Nat) (a h c bio : Handle) :
    exec st (Call.submitAsset s now a h c bio) =
      if st.isProvider s = false then (st, some Err.NotProvider, [])
      else if st.paused then (st, some Err.PausedError, [])
      else if now < st.lastSubmissionTime s + st.cooldownSeconds then
        (st, some Err.CooldownActive, [])
      else if st.isBatchOpen st.currentBatchId = false then
        (st, some Err.BatchClosedOrInvalid, [])
      else ({ st with
          batchAssets := mapSet st.batchAssets
            (st.currentBatchId, st.assetCountInBatch st.currentBatchId)
            (some { encryptedArea := a
                    encryptedHealthIndex := h
                    encryptedCarbonSequestration := c
                    encryptedBiodiversityIndex := bio
                    ownerAddress := s })
          assetCountInBatch := mapSet st.assetCountInBatch st.currentBatchId
            (st.assetCountInBatch st.currentBatchId + 1)
          lastSubmissionTime := mapSet st.lastSubmissionTime s now }, none,
        [Event.AssetSubmitted s st.currentBatchId (st.assetCountInBatch st.currentBatchId)]) := by
  by_cases h1 : st.isProvider s = false <;>
    by_cases h2 : st.paused = true <;>
      by_cases h3 : now < st.lastSubmissionTime s + st.cooldownSeconds <;>
        by_cases h4 : st.isBatchOpen st.currentBatchId = false <;>
          simp [exec, dispatch, submitAsset, h1, h2, h3, h4]

lemma exec_request (st : ContractState) (s now rid b : Nat) :
    exec st (Call.requestBatchSummaryDecryption s now rid b) =
      if st.paused then (st, some Err.PausedError, [])
      else if now < st.lastDecryptionRequestTime s + st.cooldownSeconds then
        (st, some Err.CooldownActive, [])
      else if st.assetCountInBatch b = 0 then (st, some Err.InvalidBatchId, [])
      else if (aggregateBatch st b).2.2 = false then (st, some Err.InvalidBatchId, [])
      else ({ st with
          decryptionContexts := mapSet st.decryptionContexts rid
            (some { batchId := b
                    stateHash := HashVal.keccak
                      [(aggregateBatch st b).1, (aggregateBatch st b).2.1] st.thisAddr
                    processed := false })
          lastDecryptionRequestTime := mapSet st.lastDecryptionRequestTime s now }, none,
        [Event.DecryptionRequested rid b]) := by
  by_cases h1 : st.paused = true <;>
    by_cases h2 : now < st.lastDecryptionRequestTime s + st.cooldownSeconds <;>
      by_cases h3 : st.assetCountInBatch b = 0 <;>
        by_cases h4 : (aggregateBatch st b).2.2 = false <;>
          simp [exec, dispatch, requestBatchSummaryDecryption, h1, h2, h3, h4]

lemma exec_myCallback (st : ContractState) (rid c1 c2 : Nat) (sig : Bool) :
    exec st (Call.myCallback rid c1 c2 sig) =
      if ((st.decryptionContexts rid).getD defaultCtx).processed then
        (st, some Err.ReplayAttempt, [])
      else if (aggregateBatch st ((st.decryptionContexts rid).getD defaultCtx).batchId).2.2 = false then
        (st, some Err.InvalidBatchId, [])
      else if HashVal.keccak
          [(aggregateBatch st ((st.decryptionContexts rid).getD defaultCtx).batchId).1,
           (aggregateBatch st ((st.decryptionContexts rid).getD defaultCtx).batchId).2.1]
          st.thisAddr ≠ ((st.decryptionContexts rid).getD defaultCtx).stateHash then
        (st, some Err.StateMismatch, [])
      else if sig = false then (st, some Err.InvalidProof, [])
      else ({ st with
          decryptionContexts := mapSet st.decryptionContexts rid
            (some { (st.decryptionContexts rid).getD defaultCtx with processed := true }) }, none,
        [Event.DecryptionCompleted rid
          ((st.decryptionContexts rid).getD defaultCtx).batchId c1 c2]) := by
  by_cases h1 : ((st.decryptionContexts rid).getD defaultCtx).processed = true <;>
    by_cases h2 : (aggregateBatch st ((st.decryptionContexts rid).getD defaultCtx).batchId).2.2 = false <;>
      by_cases h3 : HashVal.keccak
          [(aggregateBatch st ((st.decryptionContexts rid).getD defaultCtx).batchId).1,
           (aggregateBatch st ((st.decryptionContexts rid).getD defaultCtx).batchId).2.1]
          st.thisAddr = ((st.decryptionContexts rid).getD defaultCtx).stateHash <;>
        cases sig <;>
          simp [exec, dispatch, myCallback, h1, h2, h3]

/-- Structural size of a handle, used to show `FHE.add` never returns one of
its own arguments. -/
def hsize : Handle → Nat
  | Handle.uninit => 1
  | Handle.ct _ => 1
  | Handle.add a b => hsize a + hsize b + 1

lemma add_ne_left (a b : Handle) : Handle.add a b ≠ a := by
  intro he
  have h2 := congrArg hsize he
  simp only [hsize] at h2
  omega

lemma isInit_eq_false_iff (h : Handle) : FHE.isInit h = false ↔ h = Handle.uninit := by
  cases h <;> simp [FHE.isInit]

lemma isInit_eq_true_of_ne (h : Handle) (hne : h ≠ Handle.uninit) : FHE.isInit h = true := by
  cases h <;> simp [FHE.isInit] at hne ⊢

/-- The aggregation loop as a fold over the asset list. -/
def aggFold (l : List AssetData) : Handle × Handle × Bool :=
  l.foldl aggStep (Handle.uninit, Handle.uninit, false)

lemma aggregateBatch_eq_fold (st : ContractState) (b : Nat) :
    aggregateBatch st b = aggFold (assetsList st b) := by
  unfold aggregateBatch aggFold assetsList
  rw [List.foldl_map]

lemma aggStep_snd_true (acc : Handle × Handle × Bool) (x : AssetData)
    (h : acc.2.2 = true) : (aggStep acc x).2.2 = true := by
  unfold aggStep
  split <;> simp [h]

lemma foldl_aggStep_snd_true (l : List AssetData) :
    ∀ acc : Handle × Handle × Bool, acc.2.2 = true → (l.foldl aggStep acc).2.2 = true := by
  induction l with
  | nil => intro acc h; simpa using h
  | cons x xs ih =>
    intro acc h
    simpa using ih (aggStep acc x) (aggStep_snd_true acc x h)

lemma aggFold_seeded_of_ne_nil (l : List AssetData) (h : l ≠ []) :
    (aggFold l).2.2 = true := by
  cases l with
  | nil => exact absurd rfl h
  | cons x xs =>
    unfold aggFold
    rw [List.foldl_cons]
    apply foldl_aggStep_snd_true
    simp [aggStep, FHE.isInit]

lemma foldl_aggStep_fst_ne (l : List AssetData) :
    ∀ acc : Handle × Handle × Bool, acc.1 ≠ Handle.uninit →
      (l.foldl aggStep acc).1 ≠ Handle.uninit := by
  induction l with
  | nil => intro acc h; simpa using h
  | cons x xs ih =>
    intro acc h
    rw [List.foldl_cons]
    apply ih
    unfold aggStep
    rw [if_neg]
    · simp
    · rw [isInit_eq_false_iff]; exact h

/-- Fold describing what §4.4 of the spec says the accumulators do after the
seed: homomorphic addition of each later asset's area and carbon fields. -/
def specFoldPair (p : Handle × Handle) (l : List AssetData) : Handle × Handle :=
  l.foldl (fun q y => (Handle.add q.1 y.encryptedArea, Handle.add q.2 y.encryptedCarbonSequestration)) p

lemma foldl_aggStep_nominal (l : List AssetData) :
    ∀ p1 p2 : Handle, p1 ≠ Handle.uninit →
      l.foldl aggStep (p1, p2, true) =
        ((specFoldPair (p1, p2) l).1, (specFoldPair (p1, p2) l).2, true) := by
  induction l with
  | nil => intro p1 p2 _; simp [specFoldPair]
  | cons y ys ih =>
    intro p1 p2 hp
    rw [List.foldl_cons]
    have hini : FHE.isInit p1 = true := isInit_eq_true_of_ne p1 hp
    have hstep : aggStep (p1, p2, true) y =
        (Handle.add p1 y.encryptedArea, Handle.add p2 y.encryptedCarbonSequestration, true) := by
      simp [aggStep, hini]
    rw [hstep, ih _ _ (by simp)]
    simp [specFoldPair]

lemma aggFold_cons_nominal (x : AssetData) (l : List AssetData)
    (hx : x.encryptedArea ≠ Handle.uninit) :
    aggFold (x :: l) =
      ((specFoldPair (x.encryptedArea, x.encryptedCarbonSequestration) l).1,
       (specFoldPair (x.encryptedArea, x.encryptedCarbonSequestration) l).2, true) := by
  unfold aggFold
  rw [List.foldl_cons]
  have hstep : aggStep (Handle.uninit, Handle.uninit, false) x =
      (x.encryptedArea, x.encryptedCarbonSequestration, true) := by
    simp [aggStep, FHE.isInit]
  rw [hstep]
  exact foldl_aggStep_nominal l _ _ hx

lemma aggFold_append_one (l : List AssetData) (y : AssetData)
    (h1 : (aggFold l).1 ≠ Handle.uninit) (h2 : (aggFold l).2.2 = true) :
    aggFold (l ++ [y]) =
      (Handle.add (aggFold l).1 y.encryptedArea,
       Handle.add (aggFold l).2.1 y.encryptedCarbonSequestration, true) := by
  have h1' : FHE.isInit (aggFold l).1 = true := isInit_eq_true_of_ne _ h1
  show (l ++ [y]).foldl aggStep (Handle.uninit, Handle.uninit, false) = _
  rw [List.foldl_append, List.foldl_cons, List.foldl_nil]
  show aggStep (aggFold l) y = _
  simp [aggStep, h1', h2]

/-- The two ciphertext fields the aggregation loop reads. -/
def areaCarbon (x : AssetData) : Handle × Handle :=
  (x.encryptedArea, x.encryptedCarbonSequestration)

lemma foldl_aggStep_fields (l1 : List AssetData) :
    ∀ l2 : List AssetData, l1.map areaCarbon = l2.map areaCarbon →
      ∀ acc : Handle × Handle × Bool, l1.foldl aggStep acc = l2.foldl aggStep acc := by
  induction l1 with
  | nil =>
    intro l2 hm acc
    cases l2 with
    | nil => rfl
    | cons y ys => simp at hm
  | cons x xs ih =>
    intro l2 hm acc
    cases l2 with
    | nil => simp at hm
    | cons y ys =>
      simp only [List.map_cons, List.cons.injEq] at hm
      obtain ⟨hxy, hrest⟩ := hm
      have harea : x.encryptedArea = y.encryptedArea := congrArg Prod.fst hxy
      have hcarb : x.encryptedCarbonSequestration = y.encryptedCarbonSequestration :=
        congrArg Prod.snd hxy
      rw [List.foldl_cons, List.foldl_cons]
      have hstep : aggStep acc x = aggStep acc y := by
        unfold aggStep
        rw [harea, hcarb]
      rw [hstep]
      exact ih ys hrest (aggStep acc y)

lemma assetsList_cons (st : ContractState) (b : Nat)
    (h : 0 < st.assetCountInBatch b) :
    assetsList st b =
      readAsset st b 0 ::
        (List.range (st.assetCountInBatch b - 1)).map (fun i => readAsset st b (i + 1)) := by
  obtain ⟨k, hk⟩ := Nat.exists_eq_succ_of_ne_zero (Nat.pos_iff_ne_zero.mp h)
  unfold assetsList
  rw [hk]
  rw [List.range_succ_eq_map]
  simp [List.map_map, Function.comp]

/-- Inductive invariant of the contract storage: batch ids start at 1 and
only batches up to `currentBatchId` can be open or populated, and the
asset slots of every batch are exactly the indices below its count. -/
structure ContractInv (st : ContractState) : Prop where
  one_le_cur : 1 ≤ st.currentBatchId
  open_le : ∀ b, st.isBatchOpen b = true → b ≤ st.currentBatchId
  count_le : ∀ b, 0 < st.assetCountInBatch b → 1 ≤ b ∧ b ≤ st.currentBatchId
  dense : ∀ b i, (st.batchAssets (b, i)).isSome = true ↔ i < st.assetCountInBatch b

lemma inv_init (deployer addr : Nat) : ContractInv (initState deployer addr) := by
  refine ⟨Nat.le_refl 1, ?_, ?_, ?_⟩
  · intro b hb
    by_cases hb1 : b = 1
    · subst hb1
      exact Nat.le_refl 1
    · rw [initState] at hb
      dsimp only at hb
      rw [mapSet_ne _ _ _ hb1] at hb
      simp at hb
  · intro b hb
    simp [initState] at hb
  · intro b i
    simp [initState]

lemma inv_step (st : ContractState) (c : Call) (h : ContractInv st) : ContractInv (stepState st c) := by
  cases c with
  | transferOwnership s n =>
    unfold stepState
    rw [exec_transferOwnership]
    split_ifs with h1
    · exact h
    · exact ⟨h.one_le_cur, h.open_le, h.count_le, h.dense⟩
  | addProvider s p =>
    unfold stepState
    rw [exec_addProvider]
    split_ifs with h1
    · exact h
    · exact ⟨h.one_le_cur, h.open_le, h.count_le, h.dense⟩
  | removeProvider s p =>
    unfold stepState
    rw [exec_removeProvider]
    split_ifs with h1
    · exact h
    · exact ⟨h.one_le_cur, h.open_le, h.count_le, h.dense⟩
  | setPaused s f =>
    unfold stepState
    rw [exec_setPaused]
    split_ifs with h1 h2
    · exact h
    · exact ⟨h.one_le_cur, h.open_le, h.count_le, h.dense⟩
    · exact ⟨h.one_le_cur, h.open_le, h.count_le, h.dense⟩
  | setCooldownSeconds s v =>
    unfold stepState
    rw [exec_setCooldownSeconds]
    split_ifs with h1 h2
    · exact h
    · exact h
    · exact ⟨h.one_le_cur, h.open_le, h.count_le, h.dense⟩
  | openNewBatch s =>
    unfold stepState
    rw [exec_openNewBatch]
    split_ifs with h1 h2
    · exact h
    · exact h
    · refine ⟨Nat.le_succ_of_le h.one_le_cur, ?_, ?_, h.dense⟩
      · intro b hb
        by_cases hbb : b = st.currentBatchId + 1
        · subst hbb
          exact Nat.le_refl _
        · rw [show ({ st with
              currentBatchId := st.currentBatchId + 1
              isBatchOpen := mapSet st.isBatchOpen (st.currentBatchId + 1) true } :
                ContractState).isBatchOpen = mapSet st.isBatchOpen (st.currentBatchId + 1) true
              from rfl] at hb
          rw [mapSet_ne _ _ _ hbb] at hb
          exact Nat.le_succ_of_le (h.open_le b hb)
      · intro b hb
        obtain ⟨hl, hr⟩ := h.count_le b hb
        exact ⟨hl, Nat.le_succ_of_le hr⟩
  | closeBatch s b =>
    unfold stepState
    rw [exec_closeBatch]
    split_ifs with h1 h2
    · exact h
    · exact h
    · refine ⟨h.one_le_cur, ?_, h.count_le, h.dense⟩
      intro b2 hb2
      by_cases hbb : b2 = b
      · subst hbb
        rw [show ({ st with isBatchOpen := mapSet st.isBatchOpen b2 false } :
            ContractState).isBatchOpen = mapSet st.isBatchOpen b2 false from rfl] at hb2
        rw [mapSet_self] at hb2
        simp at hb2
      · rw [show ({ st with isBatchOpen := mapSet st.isBatchOpen b false } :
            ContractState).isBatchOpen = mapSet st.isBatchOpen b false from rfl] at hb2
        rw [mapSet_ne _ _ _ hbb] at hb2
        exact h.open_le b2 hb2
  | submitAsset s now a hh cc bio =>
    unfold stepState
    rw [exec_submitAsset]
    split_ifs with h1 h2 h3 h4
    · exact h
    · exact h
    · exact h
    · exact h
    · refine ⟨h.one_le_cur, h.open_le, ?_, ?_⟩
      · intro b2 hb2
        by_cases hbb : b2 = st.currentBatchId
        · subst hbb
          exact ⟨h.one_le_cur, Nat.le_refl _⟩
        · rw [show ({ st with
                batchAssets := mapSet st.batchAssets
                  (st.currentBatchId, st.assetCountInBatch st.currentBatchId)
                  (some { encryptedArea := a
                          encryptedHealthIndex := hh
                          encryptedCarbonSequestration := cc
                          encryptedBiodiversityIndex := bio
                          ownerAddress := s })
                assetCountInBatch := mapSet st.assetCountInBatch st.currentBatchId
                  (st.assetCountInBatch st.currentBatchId + 1)
                lastSubmissionTime := mapSet st.lastSubmissionTime s now } :
              ContractState).assetCountInBatch =
              mapSet st.assetCountInBatch st.currentBatchId
                (st.assetCountInBatch st.currentBatchId + 1) from rfl] at hb2
          rw [mapSet_ne _ _ _ hbb] at hb2
          exact h.count_le b2 hb2
      · intro b2 i
        show (mapSet st.batchAssets
            (st.currentBatchId, st.assetCountInBatch st.currentBatchId) _ (b2, i)).isSome = true ↔
          i < mapSet st.assetCountInBatch st.currentBatchId
            (st.assetCountInBatch st.currentBatchId + 1) b2
        by_cases hbb : b2 = st.currentBatchId
        · subst hbb
          rw [mapSet_self]
          by_cases hi : i = st.assetCountInBatch st.currentBatchId
          · subst hi
            rw [mapSet_self]
            simp
          · have hne : ((st.currentBatchId, i) : Nat × Nat) ≠
                (st.currentBatchId, st.assetCountInBatch st.currentBatchId) := by
              intro he
              injection he with he1 he2
              exact hi he2
            rw [mapSet_ne _ _ _ hne]
            rw [h.dense st.currentBatchId i]
            omega
        · have hne : (b2, i) ≠ (st.currentBatchId, st.assetCountInBatch st.currentBatchId) := by
            intro he
            injection he with he1 he2
            exact hbb he1
          rw [mapSet_ne _ _ _ hne, mapSet_ne _ _ _ hbb]
          exact h.dense b2 i
  | requestBatchSummaryDecryption s now rid b =>
    unfold stepState
    rw [exec_request]
    split_ifs with h1 h2 h3 h4
    · exact h
    · exact h
    · exact h
    · exact h
    · exact ⟨h.one_le_cur, h.open_le, h.count_le, h.dense⟩
  | myCallback rid c1 c2 sig =>
    unfold stepState
    rw [exec_myCallback]
    split_ifs with h1 h2 h3 h4
    · exact h
    · exact h
    · exact h
    · exact h
    · exact ⟨h.one_le_cur, h.open_le, h.count_le, h.dense⟩

lemma reachable_inv (st : ContractState) (h : Reachable st) : ContractInv st := by
  induction h with
  | init d a => exact inv_init d a
  | step st2 c _ ih => exact inv_step st2 c ih

lemma exec_error_state (st : ContractState) (c : Call) (e : Err)
    (h : (exec st c).2.1 = some e) : (exec st c).1 = st := by
  rw [exec_fail st c e h]

lemma cur_mono (st : ContractState) (c : Call) :
    st.currentBatchId ≤ (stepState st c).currentBatchId := by
  cases c <;> unfold stepState <;>
    first
      | rw [exec_transferOwnership]
      | rw [exec_addProvider]
      | rw [exec_removeProvider]
      | rw [exec_setPaused]
      | rw [exec_setCooldownSeconds]
      | rw [exec_openNewBatch]
      | rw [exec_closeBatch]
      | rw [exec_submitAsset]
      | rw [exec_request]
      | rw [exec_myCallback]
  all_goals split_ifs <;> first | exact Nat.le_refl _ | exact Nat.le_succ _

lemma open_frozen_step (st : ContractState) (c : Call) (b : Nat)
    (hb : b ≤ st.currentBatchId) (hcl : st.isBatchOpen b = false) :
    (stepState st c).isBatchOpen b = false := by
  cases c with
  | openNewBatch s =>
    unfold stepState
    rw [exec_openNewBatch]
    split_ifs
    · exact hcl
    · exact hcl
    · show mapSet st.isBatchOpen (st.currentBatchId + 1) true b = false
      rw [mapSet_ne _ _ _ (by omega)]
      exact hcl
  | closeBatch s b2 =>
    unfold stepState
    rw [exec_closeBatch]
    split_ifs
    · exact hcl
    · exact hcl
    · show mapSet st.isBatchOpen b2 false b = false
      by_cases hbb : b = b2
      · subst hbb
        rw [mapSet_self]
      · rw [mapSet_ne _ _ _ hbb]
        exact hcl
  | transferOwnership s n =>
    unfold stepState
    rw [exec_transferOwnership]
    split_ifs <;> exact hcl
  | addProvider s p =>
    unfold stepState
    rw [exec_addProvider]
    split_ifs <;> exact hcl
  | removeProvider s p =>
    unfold stepState
    rw [exec_removeProvider]
    split_ifs <;> exact hcl
  | setPaused s f =>
    unfold stepState
    rw [exec_setPaused]
    split_ifs <;> exact hcl
  | setCooldownSeconds s v =>
    unfold stepState
    rw [exec_setCooldownSeconds]
    split_ifs <;> exact hcl
  | submitAsset s now a hh cc bio =>
    unfold stepState
    rw [exec_submitAsset]
    split_ifs <;> exact hcl
  | requestBatchSummaryDecryption s now rid b2 =>
    unfold stepState
    rw [exec_request]
    split_ifs <;> exact hcl
  | myCallback rid c1 c2 sig =>
    unfold stepState
    rw [exec_myCallback]
    split_ifs <;> exact hcl

lemma count_step_of_ne_or_closed (st : ContractState) (c : Call) (b : Nat)
    (h : st.isBatchOpen b = false ∨ b ≠ st.currentBatchId) :
    (stepState st c).assetCountInBatch b = st.assetCountInBatch b := by
  cases c with
  | submitAsset s now a hh cc bio =>
    unfold stepState
    rw [exec_submitAsset]
    split_ifs with h1 h2 h3 h4
    · rfl
    · rfl
    · rfl
    · rfl
    · show mapSet st.assetCountInBatch st.currentBatchId
        (st.assetCountInBatch st.currentBatchId + 1) b = st.assetCountInBatch b
      have hbne : b ≠ st.currentBatchId := by
        rcases h with hcl | hne
        · intro he
          rw [he] at hcl
          rw [hcl] at h4
          exact h4 rfl
        · exact hne
      rw [mapSet_ne _ _ _ hbne]
  | transferOwnership s n =>
    unfold stepState
    rw [exec_transferOwnership]
    split_ifs <;> rfl
  | addProvider s p =>
    unfold stepState
    rw [exec_addProvider]
    split_ifs <;> rfl
  | removeProvider s p =>
    unfold stepState
    rw [exec_removeProvider]
    split_ifs <;> rfl
  | setPaused s f =>
    unfold stepState
    rw [exec_setPaused]
    split_ifs <;> rfl
  | setCooldownSeconds s v =>
    unfold stepState
    rw [exec_setCooldownSeconds]
    split_ifs <;> rfl
  | openNewBatch s =>
    unfold stepState
    rw [exec_openNewBatch]
    split_ifs <;> rfl
  | closeBatch s b2 =>
    unfold stepState
    rw [exec_closeBatch]
    split_ifs <;> rfl
  | requestBatchSummaryDecryption s now rid b2 =>
    unfold stepState
    rw [exec_request]
    split_ifs <;> rfl
  | myCallback rid c1 c2 sig =>
    unfold stepState
    rw [exec_myCallback]
    split_ifs <;> rfl

lemma frozen_run (cs : List Call) :
    ∀ st : ContractState, ∀ b : Nat, b ≤ st.currentBatchId → st.isBatchOpen b = false →
      (run st cs).isBatchOpen b = false ∧
      (run st cs).assetCountInBatch b = st.assetCountInBatch b := by
  induction cs with
  | nil => intro st b _ hcl; exact ⟨hcl, rfl⟩
  | cons c cs ih =>
    intro st b hb hcl
    have h1 := open_frozen_step st c b hb hcl
    have h2 := count_step_of_ne_or_closed st c b (Or.inl hcl)
    have hb2 : b ≤ (stepState st c).currentBatchId := le_trans hb (cur_mono st c)
    obtain ⟨ha, hcount⟩ := ih (stepState st c) b hb2 h1
    refine ⟨ha, ?_⟩
    show (run (stepState st c) cs).assetCountInBatch b = st.assetCountInBatch b
    rw [hcount, h2]

lemma count_lt_run (cs : List Call) :
    ∀ st : ContractState, ∀ b : Nat, b < st.currentBatchId →
      (run st cs).assetCountInBatch b = st.assetCountInBatch b ∧
      b < (run st cs).currentBatchId := by
  induction cs with
  | nil => intro st b hb; exact ⟨rfl, hb⟩
  | cons c cs ih =>
    intro st b hb
    have h2 := count_step_of_ne_or_closed st c b (Or.inr (Nat.ne_of_lt hb))
    have hb2 : b < (stepState st c).currentBatchId := Nat.lt_of_lt_of_le hb (cur_mono st c)
    obtain ⟨hcount, hlt⟩ := ih (stepState st c) b hb2
    refine ⟨?_, hlt⟩
    show (run (stepState st c) cs).assetCountInBatch b = st.assetCountInBatch b
    rw [hcount, h2]

lemma ctx_frozen_step (st : ContractState) (c : Call) (rid : Nat) (ctx : DecryptionContext)
    (hctx : st.decryptionContexts rid = some ctx) (hp : ctx.processed = true)
    (hna : assignsRid rid c = false) :
    (stepState st c).decryptionContexts rid = some ctx := by
  cases c with
  | requestBatchSummaryDecryption s now r b =>
    have hr : r ≠ rid := by simpa [assignsRid] using hna
    unfold stepState
    rw [exec_request]
    split_ifs
    · exact hctx
    · exact hctx
    · exact hctx
    · exact hctx
    · show mapSet st.decryptionContexts r _ rid = some ctx
      rw [mapSet_ne _ _ _ (Ne.symm hr)]
      exact hctx
  | myCallback r c1 c2 sig =>
    by_cases hrr : r = rid
    · subst hrr
      have hcond : ((st.decryptionContexts r).getD defaultCtx).processed = true := by
        rw [hctx]
        exact hp
      unfold stepState
      rw [exec_myCallback, if_pos hcond]
      exact hctx
    · unfold stepState
      rw [exec_myCallback]
      split_ifs
      · exact hctx
      · exact hctx
      · exact hctx
      · exact hctx
      · show mapSet st.decryptionContexts r _ rid = some ctx
        rw [mapSet_ne _ _ _ (fun he => hrr he.symm)]
        exact hctx
  | transferOwnership s n =>
    unfold stepState
    rw [exec_transferOwnership]
    split_ifs <;> exact hctx
  | addProvider s p =>
    unfold stepState
    rw [exec_addProvider]
    split_ifs <;> exact hctx
  | removeProvider s p =>
    unfold stepState
    rw [exec_removeProvider]
    split_ifs <;> exact hctx
  | setPaused s f =>
    unfold stepState
    rw [exec_setPaused]
    split_ifs <;> exact hctx
  | setCooldownSeconds s v =>
    unfold stepState
    rw [exec_setCooldownSeconds]
    split_ifs <;> exact hctx
  | openNewBatch s =>
    unfold stepState
    rw [exec_openNewBatch]
    split_ifs <;> exact hctx
  | closeBatch s b2 =>
    unfold stepState
    rw [exec_closeBatch]
    split_ifs <;> exact hctx
  | submitAsset s now a hh cc bio =>
    unfold stepState
    rw [exec_submitAsset]
    split_ifs <;> exact hctx

lemma ctx_frozen_run (cs : List Call) :
    ∀ st : ContractState, ∀ rid : Nat, ∀ ctx : DecryptionContext,
      st.decryptionContexts rid = some ctx → ctx.processed = true →
      (∀ c ∈ cs, assignsRid rid c = false) →
      (run st cs).decryptionContexts rid = some ctx := by
  induction cs with
  | nil => intro st rid ctx hctx _ _; exact hctx
  | cons c cs ih =>
    intro st rid ctx hctx hp hna
    have h1 := ctx_frozen_step st c rid ctx hctx hp (hna c (List.mem_cons_self c cs))
    exact ih (stepState st c) rid ctx h1 hp (fun c2 hc2 => hna c2 (List.mem_cons_of_mem c hc2))

lemma aggregate_seeded_of_pos (st : ContractState) (b : Nat)
    (h : 0 < st.assetCountInBatch b) : (aggregateBatch st b).2.2 = true := by
  rw [aggregateBatch_eq_fold]
  apply aggFold_seeded_of_ne_nil
  rw [assetsList_cons st b h]
  exact List.cons_ne_nil _ _

lemma submit_success (st : ContractState) (s now : Nat) (a h c bio : Handle)
    (hs : (exec st (Call.submitAsset s now a h c bio)).2.1 = none) :
    st.isProvider s = true ∧ st.paused = false ∧
    st.lastSubmissionTime s + st.cooldownSeconds ≤ now ∧
    st.isBatchOpen st.currentBatchId = true ∧
    exec st (Call.submitAsset s now a h c bio) =
      ({ st with
          batchAssets := mapSet st.batchAssets
            (st.currentBatchId, st.assetCountInBatch st.currentBatchId)
            (some { encryptedArea := a
                    encryptedHealthIndex := h
                    encryptedCarbonSequestration := c
                    encryptedBiodiversityIndex := bio
                    ownerAddress := s })
          assetCountInBatch := mapSet st.assetCountInBatch st.currentBatchId
            (st.assetCountInBatch st.currentBatchId + 1)
          lastSubmissionTime := mapSet st.lastSubmissionTime s now }, none,
        [Event.AssetSubmitted s st.currentBatchId (st.assetCountInBatch st.currentBatchId)]) := by
  rw [exec_submitAsset] at hs
  split_ifs at hs with h1 h2 h3 h4
  refine ⟨by simpa using h1, by simpa using h2, by omega, by simpa using h4, ?_⟩
  rw [exec_submitAsset, if_neg h1, if_neg h2, if_neg h3, if_neg h4]

lemma request_success (st : ContractState) (s now rid b : Nat)
    (hs : (exec st (Call.requestBatchSummaryDecryption s now rid b)).2.1 = none) :
    st.paused = false ∧
    st.lastDecryptionRequestTime s + st.cooldownSeconds ≤ now ∧
    0 < st.assetCountInBatch b ∧
    exec st (Call.requestBatchSummaryDecryption s now rid b) =
      ({ st with
          decryptionContexts := mapSet st.decryptionContexts rid
            (some { batchId := b
                    stateHash := HashVal.keccak
                      [(aggregateBatch st b).1, (aggregateBatch st b).2.1] st.thisAddr
                    processed := false })
          lastDecryptionRequestTime := mapSet st.lastDecryptionRequestTime s now }, none,
        [Event.DecryptionRequested rid b]) := by
  rw [exec_request] at hs
  split_ifs at hs with h1 h2 h3 h4
  refine ⟨by simpa using h1, by omega, Nat.pos_of_ne_zero h3, ?_⟩
  rw [exec_request, if_neg h1, if_neg h2, if_neg h3, if_neg h4]

lemma callback_success (st : ContractState) (rid c1 c2 : Nat) (sig : Bool)
    (hs : (exec st (Call.myCallback rid c1 c2 sig)).2.1 = none) :
    ((st.decryptionContexts rid).getD defaultCtx).processed = false ∧
    (aggregateBatch st ((st.decryptionContexts rid).getD defaultCtx).batchId).2.2 = true ∧
    HashVal.keccak
      [(aggregateBatch st ((st.decryptionContexts rid).getD defaultCtx).batchId).1,
       (aggregateBatch st ((st.decryptionContexts rid).getD defaultCtx).batchId).2.1]
      st.thisAddr = ((st.decryptionContexts rid).getD defaultCtx).stateHash ∧
    sig = true ∧
    exec st (Call.myCallback rid c1 c2 sig) =
      ({ st with
          decryptionContexts := mapSet st.decryptionContexts rid
            (some { (st.decryptionContexts rid).getD defaultCtx with processed := true }) }, none,
        [Event.DecryptionCompleted rid
          ((st.decryptionContexts rid).getD defaultCtx).batchId c1 c2]) := by
  rw [exec_myCallback] at hs
  split_ifs at hs with h1 h2 h3 h4
  refine ⟨by simpa using h1, by simpa using h2, not_not.mp h3, by simpa using h4, ?_⟩
  rw [exec_myCallback, if_neg h1, if_neg h2, if_neg h3, if_neg h4]

lemma asset_slot_frozen_step (st : ContractState) (c : Call) (b i : Nat)
    (hi : i < st.assetCountInBatch b) :
    (stepState st c).batchAssets (b, i) = st.batchAssets (b, i) := by
  cases c with
  | submitAsset s now a hh cc bio =>
    unfold stepState
    rw [exec_submitAsset]
    split_ifs
    · rfl
    · rfl
    · rfl
    · rfl
    · show mapSet st.batchAssets
        (st.currentBatchId, st.assetCountInBatch st.currentBatchId) _ (b, i) = st.batchAssets (b, i)
      have hne : ((b, i) : Nat × Nat) ≠
          (st.currentBatchId, st.assetCountInBatch st.currentBatchId) := by
        intro he
        injection he with he1 he2
        subst he1
        omega
      rw [mapSet_ne _ _ _ hne]
  | transferOwnership s n =>
    unfold stepState
    rw [exec_transferOwnership]
    split_ifs <;> rfl
  | addProvider s p =>
    unfold stepState
    rw [exec_addProvider]
    split_ifs <;> rfl
  | removeProvider s p =>
    unfold stepState
    rw [exec_removeProvider]
    split_ifs <;> rfl
  | setPaused s f =>
    unfold stepState
    rw [exec_setPaused]
    split_ifs <;> rfl
  | setCooldownSeconds s v =>
    unfold stepState
    rw [exec_setCooldownSeconds]
    split_ifs <;> rfl
  | openNewBatch s =>
    unfold stepState
    rw [exec_openNewBatch]
    split_ifs <;> rfl
  | closeBatch s b2 =>
    unfold stepState
    rw [exec_closeBatch]
    split_ifs <;> rfl
  | requestBatchSummaryDecryption s now rid b2 =>
    unfold stepState
    rw [exec_request]
    split_ifs <;> rfl
  | myCallback rid c1 c2 sig =>
    unfold stepState
    rw [exec_myCallback]
    split_ifs <;> rfl

lemma range_map_congr (n : Nat) (f g : Nat → AssetData)
    (h : ∀ i, i < n → f i = g i) :
    (List.range n).map f = (List.range n).map g := by
  induction n with
  | zero => rfl
  | succ k ih =>
    rw [List.range_succ, List.map_append, List.map_append]
    rw [ih (fun i hi => h i (by omega))]
    simp [h k (by omega)]

/-- C1: for every request id, the decryption callback `myCallback` succeeds at
most once: a successful call marks the context processed and emits the
completed event, and any later call with the same request id (with no
intervening oracle request reusing that id, which the oracle guarantees
never to issue) fails with `ReplayAttempt` and leaves all stored state,
including the context's processed flag and the batch data, unchanged
(`exec` returns the pre-call state on the revert). -/
theorem c1_at_most_once_finalization (st : ContractState) (rid c1 c2 : Nat) (sig : Bool)
    (hsucc : (exec st (Call.myCallback rid c1 c2 sig)).2.1 = none) :
    (((stepState st (Call.myCallback rid c1 c2 sig)).decryptionContexts rid).getD
        defaultCtx).processed = true
  ∧ (exec st (Call.myCallback rid c1 c2 sig)).2.2 =
      [Event.DecryptionCompleted rid ((st.decryptionContexts rid).getD defaultCtx).batchId c1 c2]
  ∧ ∀ cs : List Call, (∀ c ∈ cs, assignsRid rid c = false) →
      ∀ c1' c2' : Nat, ∀ sig' : Bool,
        exec (run (stepState st (Call.myCallback rid c1 c2 sig)) cs)
            (Call.myCallback rid c1' c2' sig') =
          (run (stepState st (Call.myCallback rid c1 c2 sig)) cs, some Err.ReplayAttempt, []) := by
  obtain ⟨hp0, hsd, hhash, hsig, hexec⟩ := callback_success st rid c1 c2 sig hsucc
  have hstep : stepState st (Call.myCallback rid c1 c2 sig) =
      { st with
          decryptionContexts := mapSet st.decryptionContexts rid
            (some { (st.decryptionContexts rid).getD defaultCtx with processed := true }) } := by
    unfold stepState
    rw [hexec]
  have hctx1 : (stepState st (Call.myCallback rid c1 c2 sig)).decryptionContexts rid =
      some { (st.decryptionContexts rid).getD defaultCtx with processed := true } := by
    rw [hstep]
    exact mapSet_self _ _ _
  refine ⟨?_, ?_, ?_⟩
  · rw [hctx1]
    rfl
  · rw [hexec]
  · intro cs hcs c1' c2' sig'
    have hrun := ctx_frozen_run cs (stepState st (Call.myCallback rid c1 c2 sig)) rid
      { (st.decryptionContexts rid).getD defaultCtx with processed := true } hctx1 rfl hcs
    have hcond : (((run (stepState st (Call.myCallback rid c1 c2 sig)) cs).decryptionContexts
        rid).getD defaultCtx).processed = true := by
      rw [hrun]
      rfl
    rw [exec_myCallback, if_pos hcond]

/-- C3: `myCallback` checks, strictly in this order: the replay guard (a
processed context reverts with `ReplayAttempt` whatever the other inputs),
then state consistency (a recomputed commitment differing from the stored
one reverts with `StateMismatch` regardless of the proof verdict), then
proof verification (`InvalidProof` when the oracle check fails); the
context is marked processed and the completed event emitted only when all
three pass, and every failing call returns the pre-call state unchanged. -/
theorem c3_callback_check_order (st : ContractState) (rid c1 c2 : Nat) :
    (((st.decryptionContexts rid).getD defaultCtx).processed = true →
      ∀ sig : Bool, exec st (Call.myCallback rid c1 c2 sig) = (st, some Err.ReplayAttempt, []))
  ∧ (((st.decryptionContexts rid).getD defaultCtx).processed = false →
      (aggregateBatch st ((st.decryptionContexts rid).getD defaultCtx).batchId).2.2 = true →
      HashVal.keccak
          [(aggregateBatch st ((st.decryptionContexts rid).getD defaultCtx).batchId).1,
           (aggregateBatch st ((st.decryptionContexts rid).getD defaultCtx).batchId).2.1]
          st.thisAddr ≠ ((st.decryptionContexts rid).getD defaultCtx).stateHash →
      ∀ sig : Bool, exec st (Call.myCallback rid c1 c2 sig) = (st, some Err.StateMismatch, []))
  ∧ (((st.decryptionContexts rid).getD defaultCtx).processed = false →
      (aggregateBatch st ((st.decryptionContexts rid).getD defaultCtx).batchId).2.2 = true →
      HashVal.keccak
          [(aggregateBatch st ((st.decryptionContexts rid).getD defaultCtx).batchId).1,
           (aggregateBatch st ((st.decryptionContexts rid).getD defaultCtx).batchId).2.1]
          st.thisAddr = ((st.decryptionContexts rid).getD defaultCtx).stateHash →
      exec st (Call.myCallback rid c1 c2 false) = (st, some Err.InvalidProof, []))
  ∧ (((st.decryptionContexts rid).getD defaultCtx).processed = false →
      (aggregateBatch st ((st.decryptionContexts rid).getD defaultCtx).batchId).2.2 = true →
      HashVal.keccak
          [(aggregateBatch st ((st.decryptionContexts rid).getD defaultCtx).batchId).1,
           (aggregateBatch st ((st.decryptionContexts rid).getD defaultCtx).batchId).2.1]
          st.thisAddr = ((st.decryptionContexts rid).getD defaultCtx).stateHash →
      exec st (Call.myCallback rid c1 c2 true) =
        ({ st with
            decryptionContexts := mapSet st.decryptionContexts rid
              (some { (st.decryptionContexts rid).getD defaultCtx with processed := true }) },
          none,
          [Event.DecryptionCompleted rid
            ((st.decryptionContexts rid).getD defaultCtx).batchId c1 c2]))
  ∧ (∀ sig : Bool, ∀ e : Err,
      (exec st (Call.myCallback rid c1 c2 sig)).2.1 = some e →
      (exec st (Call.myCallback rid c1 c2 sig)).1 = st) := by
  refine ⟨?_, ?_, ?_, ?_, ?_⟩
  · intro hp sig
    rw [exec_myCallback, if_pos hp]
  · intro hp hsd hne sig
    rw [exec_myCallback, if_neg (by simp [hp]), if_neg (by simp [hsd]), if_pos hne]
  · intro hp hsd heq
    rw [exec_myCallback, if_neg (by simp [hp]), if_neg (by simp [hsd]),
      if_neg (by simp [heq]), if_pos rfl]
  · intro hp hsd heq
    rw [exec_myCallback, if_neg (by simp [hp]), if_neg (by simp [hsd]),
      if_neg (by simp [heq]), if_neg (by simp)]
  · exact fun sig e hsome => exec_error_state st _ e hsome

/-- C9: calling `myCallback` with a request id for which no decryption
context was ever stored always reverts with `InvalidBatchId` (the missing
context reads back as batch id 0, whose asset count is 0 in every
reachable state, so the recomputation loop never sets the seeded flag)
and leaves all state unchanged, so an unknown request id can never be
finalized or emit a completed event. -/
theorem c9_unknown_request_id (st : ContractState) (rid : Nat)
    (hre : Reachable st) (hnone : st.decryptionContexts rid = none) :
    ∀ c1 c2 : Nat, ∀ sig : Bool,
      exec st (Call.myCallback rid c1 c2 sig) = (st, some Err.InvalidBatchId, []) := by
  have hinv := reachable_inv st hre
  have hcount : st.assetCountInBatch 0 = 0 := by
    by_contra hne
    obtain ⟨h1, _⟩ := hinv.count_le 0 (Nat.pos_of_ne_zero hne)
    omega
  have hagg0 : (aggregateBatch st 0).2.2 = false := by
    unfold aggregateBatch
    rw [hcount]
    rfl
  intro c1 c2 sig
  rw [exec_myCallback, hnone]
  simp [defaultCtx, hagg0]

/-- C6: with the other guards satisfied, a submission or a decryption
request is accepted exactly when `now` is at least the caller's stored
timestamp plus `cooldownSeconds`; acceptance stamps the caller's timestamp
to `now` in the same atomic call, a too-early call reverts with
`CooldownActive` and no other effect, and any reverting call whatsoever
leaves the whole state (in particular both cooldown timers) unchanged. -/
theorem c6_cooldown_enforcement (st : ContractState) (s now : Nat) (a h c bio : Handle)
    (rid b : Nat)
    (hp : st.isProvider s = true) (hnp : st.paused = false)
    (hopen : st.isBatchOpen st.currentBatchId = true)
    (hcnt : 0 < st.assetCountInBatch b) :
    ((exec st (Call.submitAsset s now a h c bio)).2.1 = none ↔
      st.lastSubmissionTime s + st.cooldownSeconds ≤ now)
  ∧ (st.lastSubmissionTime s + st.cooldownSeconds ≤ now →
      (stepState st (Call.submitAsset s now a h c bio)).lastSubmissionTime s = now)
  ∧ (now < st.lastSubmissionTime s + st.cooldownSeconds →
      exec st (Call.submitAsset s now a h c bio) = (st, some Err.CooldownActive, []))
  ∧ ((exec st (Call.requestBatchSummaryDecryption s now rid b)).2.1 = none ↔
      st.lastDecryptionRequestTime s + st.cooldownSeconds ≤ now)
  ∧ (st.lastDecryptionRequestTime s + st.cooldownSeconds ≤ now →
      (stepState st (Call.requestBatchSummaryDecryption s now rid b)).lastDecryptionRequestTime s
        = now)
  ∧ (now < st.lastDecryptionRequestTime s + st.cooldownSeconds →
      exec st (Call.requestBatchSummaryDecryption s now rid b) = (st, some Err.CooldownActive, []))
  ∧ (∀ c2 : Call, ∀ e : Err, (exec st c2).2.1 = some e → (exec st c2).1 = st) := by
  refine ⟨?_, ?_, ?_, ?_, ?_, ?_, ?_⟩
  · rw [exec_submitAsset, if_neg (by simp [hp]), if_neg (by simp [hnp])]
    by_cases hlt : now < st.lastSubmissionTime s + st.cooldownSeconds
    · rw [if_pos hlt]
      exact iff_of_false (by simp) (by omega)
    · rw [if_neg hlt, if_neg (by simp [hopen])]
      exact iff_of_true rfl (by omega)
  · intro hle
    unfold stepState
    rw [exec_submitAsset, if_neg (by simp [hp]), if_neg (by simp [hnp]),
      if_neg (by omega), if_neg (by simp [hopen])]
    exact mapSet_self _ _ _
  · intro hlt
    rw [exec_submitAsset, if_neg (by simp [hp]), if_neg (by simp [hnp]), if_pos hlt]
  · rw [exec_request, if_neg (by simp [hnp])]
    by_cases hlt : now < st.lastDecryptionRequestTime s + st.cooldownSeconds
    · rw [if_pos hlt]
      exact iff_of_false (by simp) (by omega)
    · rw [if_neg hlt, if_neg (by omega), if_neg (by simp [aggregate_seeded_of_pos st b hcnt])]
      exact iff_of_true rfl (by omega)
  · intro hle
    unfold stepState
    rw [exec_request, if_neg (by simp [hnp]), if_neg (by omega), if_neg (by omega),
      if_neg (by simp [aggregate_seeded_of_pos st b hcnt])]
    exact mapSet_self _ _ _
  · intro hlt
    rw [exec_request, if_neg (by simp [hnp]), if_pos hlt]
  · exact fun c2 e hsome => exec_error_state st c2 e hsome

/-- C7: `closeBatch(b)` reverts with `BatchClosedOrInvalid` exactly when the
caller is the owner and `b` is not currently open (a non-owner fails with
`NotOwner` instead, and never-created and already-closed ids are
indistinguishable), and once a `closeBatch(b)` succeeds, no sequence of
further calls ever reopens `b` or changes `assetCountInBatch[b]`, for any
caller or role. -/
theorem c7_closed_batch_immutability (st : ContractState) (hre : Reachable st) :
    (∀ s b, (exec st (Call.closeBatch s b)).2.1 = some Err.BatchClosedOrInvalid ↔
      (s = st.owner ∧ st.isBatchOpen b = false))
  ∧ (∀ s b, (exec st (Call.closeBatch s b)).2.1 = none →
      ∀ cs : List Call,
        (run (stepState st (Call.closeBatch s b)) cs).isBatchOpen b = false ∧
        (run (stepState st (Call.closeBatch s b)) cs).assetCountInBatch b =
          st.assetCountInBatch b) := by
  have hinv := reachable_inv st hre
  constructor
  · intro s b
    rw [exec_closeBatch]
    split_ifs with h1 h2
    · simp [h1]
    · rw [not_not] at h1
      simp [h1, h2]
    · simp [h2]
  · intro s b hsucc cs
    rw [exec_closeBatch] at hsucc
    split_ifs at hsucc with h1 h2
    have hopen : st.isBatchOpen b = true := by simpa using h2
    have hstep : stepState st (Call.closeBatch s b) =
        { st with isBatchOpen := mapSet st.isBatchOpen b false } := by
      unfold stepState
      rw [exec_closeBatch, if_neg h1, if_neg h2]
    have hble : b ≤ (stepState st (Call.closeBatch s b)).currentBatchId := by
      rw [hstep]
      exact hinv.open_le b hopen
    have hclosed : (stepState st (Call.closeBatch s b)).isBatchOpen b = false := by
      rw [hstep]
      exact mapSet_self _ _ _
    obtain ⟨hA, hB⟩ := frozen_run cs (stepState st (Call.closeBatch s b)) b hble hclosed
    refine ⟨hA, ?_⟩
    rw [hB, hstep]

/-- C8: in every reachable state the asset slots of each batch `b` are
exactly the indices `0 .. assetCountInBatch b - 1` (a slot is occupied iff
its index is below the count); a successful `submitAsset` writes the new
record at the current batch's current count and increments only that
batch's count; and no call ever mutates or deletes an already-written
asset slot. -/
theorem c8_sequential_index_invariant (st : ContractState) (hre : Reachable st) :
    (∀ b i, (st.batchAssets (b, i)).isSome = true ↔ i < st.assetCountInBatch b)
  ∧ (∀ s now : Nat, ∀ a h c bio : Handle,
      (exec st (Call.submitAsset s now a h c bio)).2.1 = none →
      (stepState st (Call.submitAsset s now a h c bio)).batchAssets
          (st.currentBatchId, st.assetCountInBatch st.currentBatchId) =
        some { encryptedArea := a
               encryptedHealthIndex := h
               encryptedCarbonSequestration := c
               encryptedBiodiversityIndex := bio
               ownerAddress := s } ∧
      (stepState st (Call.submitAsset s now a h c bio)).assetCountInBatch st.currentBatchId =
        st.assetCountInBatch st.currentBatchId + 1 ∧
      (∀ b2, b2 ≠ st.currentBatchId →
        (stepState st (Call.submitAsset s now a h c bio)).assetCountInBatch b2 =
          st.assetCountInBatch b2))
  ∧ (∀ c2 : Call, ∀ b i, i < st.assetCountInBatch b →
      (stepState st c2).batchAssets (b, i) = st.batchAssets (b, i)) := by
  refine ⟨(reachable_inv st hre).dense, ?_, ?_⟩
  · intro s now a h c bio hsucc
    obtain ⟨_, _, _, _, hexec⟩ := submit_success st s now a h c bio hsucc
    have hstep : stepState st (Call.submitAsset s now a h c bio) =
        { st with
            batchAssets := mapSet st.batchAssets
              (st.currentBatchId, st.assetCountInBatch st.currentBatchId)
              (some { encryptedArea := a
                      encryptedHealthIndex := h
                      encryptedCarbonSequestration := c
                      encryptedBiodiversityIndex := bio
                      ownerAddress := s })
            assetCountInBatch := mapSet st.assetCountInBatch st.currentBatchId
              (st.assetCountInBatch st.currentBatchId + 1)
            lastSubmissionTime := mapSet st.lastSubmissionTime s now } := by
      unfold stepState
      rw [hexec]
    refine ⟨?_, ?_, ?_⟩
    · rw [hstep]
      exact mapSet_self _ _ _
    · rw [hstep]
      exact mapSet_self _ _ _
    · intro b2 hb2
      rw [hstep]
      exact mapSet_ne _ _ _ hb2
  · exact fun c2 b i hi => asset_slot_frozen_step st c2 b i hi

/-- C10: a successful `openNewBatch` increments `currentBatchId` and opens
the new id while leaving every other batch's open flag (in particular the
previous current batch's) and all asset counts untouched, so several ids
can be flagged open at once (witnessed after one `openNewBatch` from
deployment); still, a superseded batch `b < currentBatchId` never receives
another asset under any later call sequence, and the owner's `closeBatch`
on any still-open batch succeeds. -/
theorem c10_superseded_batches (st : ContractState) :
    (∀ s, s = st.owner → st.paused = false →
      (stepState st (Call.openNewBatch s)).currentBatchId = st.currentBatchId + 1 ∧
      (stepState st (Call.openNewBatch s)).isBatchOpen (st.currentBatchId + 1) = true ∧
      (∀ b, b ≠ st.currentBatchId + 1 →
        (stepState st (Call.openNewBatch s)).isBatchOpen b = st.isBatchOpen b) ∧
      (∀ b, (stepState st (Call.openNewBatch s)).assetCountInBatch b = st.assetCountInBatch b))
  ∧ ((run (initState 1 7) [Call.openNewBatch 1]).isBatchOpen 1 = true ∧
     (run (initState 1 7) [Call.openNewBatch 1]).isBatchOpen 2 = true)
  ∧ (∀ b, b < st.currentBatchId → ∀ cs : List Call,
      (run st cs).assetCountInBatch b = st.assetCountInBatch b)
  ∧ (∀ s b, s = st.owner → st.isBatchOpen b = true →
      (exec st (Call.closeBatch s b)).2.1 = none) := by
  refine ⟨?_, ⟨by decide, by decide⟩, ?_, ?_⟩
  · intro s hs hnp
    have hstep : stepState st (Call.openNewBatch s) =
        { st with
            currentBatchId := st.currentBatchId + 1
            isBatchOpen := mapSet st.isBatchOpen (st.currentBatchId + 1) true } := by
      unfold stepState
      rw [exec_openNewBatch, if_neg (by simp [hs]), if_neg (by simp [hnp])]
    refine ⟨by rw [hstep], ?_, ?_, fun b => by rw [hstep]⟩
    · rw [hstep]
      exact mapSet_self _ _ _
    · intro b hb
      rw [hstep]
      exact mapSet_ne _ _ _ hb
  · exact fun b hb cs => (count_lt_run cs st b hb).1
  · intro s b hs hopen
    rw [exec_closeBatch, if_neg (by simp [hs]), if_neg (by simp [hopen])]

/-- C4 counterexample: the claim that `addProvider` fails while paused is
false on the code.  From deployment, the owner pauses the contract and
then successfully calls `addProvider` (no revert, and the provider flag is
actually set), because `addProvider` carries only `onlyOwner` and no
`whenNotPaused` modifier. -/
theorem c4_pause_gating_counterexample :
    (run (initState 1 7) [Call.setPaused 1 true]).paused = true
  ∧ (exec (run (initState 1 7) [Call.setPaused 1 true]) (Call.addProvider 1 2)).2.1 = none
  ∧ (stepState (run (initState 1 7) [Call.setPaused 1 true]) (Call.addProvider 1 2)).isProvider 2
      = true := by
  refine ⟨by decide, by decide, by decide⟩

/-- C4 amended: when the pause flag is set, exactly the three
`whenNotPaused`-guarded operations are rejected with `PausedError`
(`submitAsset` for a provider, `requestBatchSummaryDecryption` for anyone,
`openNewBatch` for the owner); `closeBatch`, `setCooldownSeconds`,
`setPaused`, `addProvider`, `removeProvider`, `transferOwnership` and the
decryption callback `myCallback` are not pause-gated: their error/event
outcome is identical with the pause flag cleared, and in particular the
owner's `addProvider` succeeds while paused. -/
theorem c4_pause_gating_amended (st : ContractState) (hpz : st.paused = true) :
    (∀ s now : Nat, ∀ a h c bio : Handle, st.isProvider s = true →
      exec st (Call.submitAsset s now a h c bio) = (st, some Err.PausedError, []))
  ∧ (∀ s now rid b : Nat,
      exec st (Call.requestBatchSummaryDecryption s now rid b) = (st, some Err.PausedError, []))
  ∧ (∀ s : Nat, s = st.owner →
      exec st (Call.openNewBatch s) = (st, some Err.PausedError, []))
  ∧ (∀ s p : Nat, s = st.owner → (exec st (Call.addProvider s p)).2.1 = none)
  ∧ (∀ s b : Nat, (exec st (Call.closeBatch s b)).2 =
      (exec { st with paused := false } (Call.closeBatch s b)).2)
  ∧ (∀ s v : Nat, (exec st (Call.setCooldownSeconds s v)).2 =
      (exec { st with paused := false } (Call.setCooldownSeconds s v)).2)
  ∧ (∀ s : Nat, ∀ f : Bool, (exec st (Call.setPaused s f)).2 =
      (exec { st with paused := false } (Call.setPaused s f)).2)
  ∧ (∀ s p : Nat, (exec st (Call.addProvider s p)).2 =
      (exec { st with paused := false } (Call.addProvider s p)).2)
  ∧ (∀ s p : Nat, (exec st (Call.removeProvider s p)).2 =
      (exec { st with paused := false } (Call.removeProvider s p)).2)
  ∧ (∀ s n : Nat, (exec st (Call.transferOwnership s n)).2 =
      (exec { st with paused := false } (Call.transferOwnership s n)).2)
  ∧ (∀ rid c1 c2 : Nat, ∀ sig : Bool, (exec st (Call.myCallback rid c1 c2 sig)).2 =
      (exec { st with paused := false } (Call.myCallback rid c1 c2 sig)).2) := by
  refine ⟨?_, ?_, ?_, ?_, ?_, ?_, ?_, ?_, ?_, ?_, ?_⟩
  · intro s now a h c bio hprov
    rw [exec_submitAsset, if_neg (by simp [hprov]), if_pos hpz]
  · intro s now rid b
    rw [exec_request, if_pos hpz]
  · intro s hs
    rw [exec_openNewBatch, if_neg (by simp [hs]), if_pos hpz]
  · intro s p hs
    rw [exec_addProvider, if_neg (by simp [hs])]
  · intro s b
    by_cases h1 : s = st.owner
    · by_cases h2 : st.isBatchOpen b = false <;> simp [exec_closeBatch, h1, h2]
    · simp [exec_closeBatch, h1]
  · intro s v
    by_cases h1 : s = st.owner
    · by_cases h2 : v = 0 <;> simp [exec_setCooldownSeconds, h1, h2]
    · simp [exec_setCooldownSeconds, h1]
  · intro s f
    by_cases h1 : s = st.owner <;> cases f <;> simp [exec_setPaused, h1]
  · intro s p
    by_cases h1 : s = st.owner <;> simp [exec_addProvider, h1]
  · intro s p
    by_cases h1 : s = st.owner <;> simp [exec_removeProvider, h1]
  · intro s n
    by_cases h1 : s = st.owner <;> simp [exec_transferOwnership, h1]
  · intro rid c1 c2 sig
    have e2 : ∀ bb, aggregateBatch { st with paused := false } bb = aggregateBatch st bb :=
      fun bb => rfl
    rw [exec_myCallback, exec_myCallback]
    rw [show ({ st with paused := false } : ContractState).decryptionContexts =
      st.decryptionContexts from rfl]
    rw [e2]
    rw [show ({ st with paused := false } : ContractState).thisAddr = st.thisAddr from rfl]
    split_ifs <;> rfl

/-- C5 counterexample: the claim that aggregation always seeds from the
first asset and then homomorphically adds every later asset is false when
a stored area ciphertext is the uninitialized handle: in this reachable
two-asset batch the loop re-seeds at index 1 (because the accumulated
area handle is still uninitialized), so the code's result drops asset 0's
carbon ciphertext and differs from the seed-then-add fold that §4.4
describes. -/
theorem c5_aggregation_counterexample :
    (run (initState 1 7)
      [Call.addProvider 1 2,
       Call.submitAsset 2 100 Handle.uninit (Handle.ct 9) (Handle.ct 3) (Handle.ct 9),
       Call.submitAsset 2 200 (Handle.ct 1) (Handle.ct 9) (Handle.ct 2) (Handle.ct 9)]).assetCountInBatch 1 = 2
  ∧ aggregateBatch (run (initState 1 7)
      [Call.addProvider 1 2,
       Call.submitAsset 2 100 Handle.uninit (Handle.ct 9) (Handle.ct 3) (Handle.ct 9),
       Call.submitAsset 2 200 (Handle.ct 1) (Handle.ct 9) (Handle.ct 2) (Handle.ct 9)]) 1 =
      (Handle.ct 1, Handle.ct 2, true)
  ∧ specAggregate (assetsList (run (initState 1 7)
      [Call.addProvider 1 2,
       Call.submitAsset 2 100 Handle.uninit (Handle.ct 9) (Handle.ct 3) (Handle.ct 9),
       Call.submitAsset 2 200 (Handle.ct 1) (Handle.ct 9) (Handle.ct 2) (Handle.ct 9)]) 1) =
      some (Handle.add Handle.uninit (Handle.ct 1), Handle.add (Handle.ct 3) (Handle.ct 2))
  ∧ specAggregate (assetsList (run (initState 1 7)
      [Call.addProvider 1 2,
       Call.submitAsset 2 100 Handle.uninit (Handle.ct 9) (Handle.ct 3) (Handle.ct 9),
       Call.submitAsset 2 200 (Handle.ct 1) (Handle.ct 9) (Handle.ct 2) (Handle.ct 9)]) 1) ≠
      some ((aggregateBatch (run (initState 1 7)
        [Call.addProvider 1 2,
         Call.submitAsset 2 100 Handle.uninit (Handle.ct 9) (Handle.ct 3) (Handle.ct 9),
         Call.submitAsset 2 200 (Handle.ct 1) (Handle.ct 9) (Handle.ct 2) (Handle.ct 9)]) 1).1,
        (aggregateBatch (run (initState 1 7)
          [Call.addProvider 1 2,
           Call.submitAsset 2 100 Handle.uninit (Handle.ct 9) (Handle.ct 3) (Handle.ct 9),
           Call.submitAsset 2 200 (Handle.ct 1) (Handle.ct 9) (Handle.ct 2) (Handle.ct 9)]) 1).2.1) := by
  refine ⟨by decide, by decide, by decide, by decide⟩

/-- C5 amended: inside `requestBatchSummaryDecryption` (pause and cooldown
guards passed) the call fails with `InvalidBatchId` iff the batch has zero
assets; provided the batch's first stored area ciphertext is an
initialized handle, the loop seeds both accumulators from asset 0 and
homomorphically adds every later asset's area and carbon ciphertexts in
ascending index order (it equals the spec's seed-then-add fold, and the
seeded flag is set); and the result depends only on the area and
carbon-sequestration fields of the stored assets, never on health or
biodiversity. -/
theorem c5_aggregation_amended (st : ContractState) (s now rid b : Nat) :
    (st.paused = false → st.lastDecryptionRequestTime s + st.cooldownSeconds ≤ now →
      ((exec st (Call.requestBatchSummaryDecryption s now rid b)).2.1 = some Err.InvalidBatchId ↔
        st.assetCountInBatch b = 0))
  ∧ (0 < st.assetCountInBatch b → (readAsset st b 0).encryptedArea ≠ Handle.uninit →
      specAggregate (assetsList st b) =
        some ((aggregateBatch st b).1, (aggregateBatch st b).2.1) ∧
      (aggregateBatch st b).2.2 = true)
  ∧ (∀ st2 : ContractState, ∀ b2 : Nat,
      (assetsList st b).map areaCarbon = (assetsList st2 b2).map areaCarbon →
      aggregateBatch st b = aggregateBatch st2 b2) := by
  refine ⟨?_, ?_, ?_⟩
  · intro hnp hcd
    rw [exec_request, if_neg (by simp [hnp]), if_neg (by omega)]
    by_cases hz : st.assetCountInBatch b = 0
    · rw [if_pos hz]
      exact iff_of_true rfl hz
    · rw [if_neg hz,
        if_neg (by simp [aggregate_seeded_of_pos st b (Nat.pos_of_ne_zero hz)])]
      exact iff_of_false (by simp) hz
  · intro hpos h0
    rw [aggregateBatch_eq_fold, assetsList_cons st b hpos]
    rw [aggFold_cons_nominal (readAsset st b 0) _ h0]
    refine ⟨?_, rfl⟩
    simp [specAggregate, specFoldPair]
  · intro st2 b2 hmap
    rw [aggregateBatch_eq_fold, aggregateBatch_eq_fold]
    exact foldl_aggStep_fields (assetsList st b) (assetsList st2 b2) hmap _

lemma callback_state_mismatch (st2 : ContractState) (rid : Nat) (ctx : DecryptionContext)
    (hctx : st2.decryptionContexts rid = some ctx)
    (hp : ctx.processed = false)
    (hsd : (aggregateBatch st2 ctx.batchId).2.2 = true)
    (hne : HashVal.keccak
        [(aggregateBatch st2 ctx.batchId).1, (aggregateBatch st2 ctx.batchId).2.1] st2.thisAddr
        ≠ ctx.stateHash) :
    ∀ c1 c2 : Nat, ∀ sig : Bool,
      exec st2 (Call.myCallback rid c1 c2 sig) = (st2, some Err.StateMismatch, []) := by
  intro c1 c2 sig
  have hg : (st2.decryptionContexts rid).getD defaultCtx = ctx := by
    rw [hctx]
    rfl
  rw [exec_myCallback, hg, if_neg (by simp [hp]), if_neg (by simp [hsd]), if_pos hne]

/-- C2 counterexample: the claim that a submission between request and
callback always makes the callback fail with `StateMismatch` is false on
the code.  In this reachable trace the batch's area ciphertexts are the
uninitialized handle, so the recomputation loop re-seeds and reproduces
the committed ciphertext pair even though a second asset was submitted
after the decryption request: the callback then succeeds (no revert). -/
theorem c2_staleness_rejection_counterexample :
    (run (initState 1 7)
      [Call.addProvider 1 2,
       Call.submitAsset 2 100 Handle.uninit (Handle.ct 7) (Handle.ct 3) (Handle.ct 7),
       Call.requestBatchSummaryDecryption 2 150 5 1,
       Call.submitAsset 2 200 Handle.uninit (Handle.ct 7) (Handle.ct 3) (Handle.ct 7)]).assetCountInBatch 1 = 2
  ∧ ((run (initState 1 7)
      [Call.addProvider 1 2,
       Call.submitAsset 2 100 Handle.uninit (Handle.ct 7) (Handle.ct 3) (Handle.ct 7),
       Call.requestBatchSummaryDecryption 2 150 5 1,
       Call.submitAsset 2 200 Handle.uninit (Handle.ct 7) (Handle.ct 3) (Handle.ct 7)]).decryptionContexts 5).isSome = true
  ∧ (exec (run (initState 1 7)
      [Call.addProvider 1 2,
       Call.submitAsset 2 100 Handle.uninit (Handle.ct 7) (Handle.ct 3) (Handle.ct 7),
       Call.requestBatchSummaryDecryption 2 150 5 1,
       Call.submitAsset 2 200 Handle.uninit (Handle.ct 7) (Handle.ct 3) (Handle.ct 7)])
      (Call.myCallback 5 10 20 true)).2.1 = none := by
  refine ⟨by decide, by decide, by decide⟩

/-- C2 amended: if a decryption request for the current batch `b` succeeds,
an asset is then successfully submitted (necessarily into `b`), and the
batch's first stored area ciphertext is an initialized handle (as every
genuine FHE ciphertext is), then the callback for that request fails with
`StateMismatch`, does not mark the context processed, and leaves all state
unchanged, regardless of the supplied cleartexts and of the proof verdict. -/
theorem c2_staleness_rejection_amended (st : ContractState) (s now rid b : Nat)
    (hb : st.currentBatchId = b)
    (h0 : (readAsset st b 0).encryptedArea ≠ Handle.uninit)
    (hreq : (exec st (Call.requestBatchSummaryDecryption s now rid b)).2.1 = none)
    (s2 n2 : Nat) (a h c bio : Handle)
    (hsub : (exec (stepState st (Call.requestBatchSummaryDecryption s now rid b))
        (Call.submitAsset s2 n2 a h c bio)).2.1 = none) :
    ∀ c1 c2 : Nat, ∀ sig : Bool,
      exec (stepState (stepState st (Call.requestBatchSummaryDecryption s now rid b))
          (Call.submitAsset s2 n2 a h c bio)) (Call.myCallback rid c1 c2 sig) =
        (stepState (stepState st (Call.requestBatchSummaryDecryption s now rid b))
            (Call.submitAsset s2 n2 a h c bio),
         some Err.StateMismatch, []) := by
  intro c1 c2 sig
  obtain ⟨hnp, hcd, hcnt, hexec1⟩ := request_success st s now rid b hreq
  have hstep1 : stepState st (Call.requestBatchSummaryDecryption s now rid b) =
      { st with
          decryptionContexts := mapSet st.decryptionContexts rid
            (some { batchId := b
                    stateHash := HashVal.keccak
                      [(aggregateBatch st b).1, (aggregateBatch st b).2.1] st.thisAddr
                    processed := false })
          lastDecryptionRequestTime := mapSet st.lastDecryptionRequestTime s now } := by
    unfold stepState
    rw [hexec1]
  rw [hstep1] at hsub
  obtain ⟨hprov2, hnp2, hcd2, hopen2, hexec2⟩ := submit_success _ s2 n2 a h c bio hsub
  rw [hstep1]
  have hstep2 : stepState
      ({ st with
          decryptionContexts := mapSet st.decryptionContexts rid
            (some { batchId := b
                    stateHash := HashVal.keccak
                      [(aggregateBatch st b).1, (aggregateBatch st b).2.1] st.thisAddr
                    processed := false })
          lastDecryptionRequestTime := mapSet st.lastDecryptionRequestTime s now } :
        ContractState)
      (Call.submitAsset s2 n2 a h c bio) =
      { st with
          decryptionContexts := mapSet st.decryptionContexts rid
            (some { batchId := b
                    stateHash := HashVal.keccak
                      [(aggregateBatch st b).1, (aggregateBatch st b).2.1] st.thisAddr
                    processed := false })
          lastDecryptionRequestTime := mapSet st.lastDecryptionRequestTime s now
          batchAssets := mapSet st.batchAssets
            (st.currentBatchId, st.assetCountInBatch st.currentBatchId)
            (some { encryptedArea := a
                    encryptedHealthIndex := h
                    encryptedCarbonSequestration := c
                    encryptedBiodiversityIndex := bio
                    ownerAddress := s2 })
          assetCountInBatch := mapSet st.assetCountInBatch st.currentBatchId
            (st.assetCountInBatch st.currentBatchId + 1)
          lastSubmissionTime := mapSet st.lastSubmissionTime s2 n2 } := by
    unfold stepState
    rw [hexec2]
  rw [hstep2]
  have hc2 : ({ st with
      decryptionContexts := mapSet st.decryptionContexts rid
        (some { batchId := b
                stateHash := HashVal.keccak
                  [(aggregateBatch st b).1, (aggregateBatch st b).2.1] st.thisAddr
                processed := false })
      lastDecryptionRequestTime := mapSet st.lastDecryptionRequestTime s now
      batchAssets := mapSet st.batchAssets
        (st.currentBatchId, st.assetCountInBatch st.currentBatchId)
        (some { encryptedArea := a
                encryptedHealthIndex := h
                encryptedCarbonSequestration := c
                encryptedBiodiversityIndex := bio
                ownerAddress := s2 })
      assetCountInBatch := mapSet st.assetCountInBatch st.currentBatchId
        (st.assetCountInBatch st.currentBatchId + 1)
      lastSubmissionTime := mapSet st.lastSubmissionTime s2 n2 } :
    ContractState).assetCountInBatch b = st.assetCountInBatch b + 1 := by
    show mapSet st.assetCountInBatch st.currentBatchId
      (st.assetCountInBatch st.currentBatchId + 1) b = st.assetCountInBatch b + 1
    rw [hb, mapSet_self]
  have hread2 : ∀ i, i < st.assetCountInBatch b →
      readAsset ({ st with
          decryptionContexts := mapSet st.decryptionContexts rid
            (some { batchId := b
                    stateHash := HashVal.keccak
                      [(aggregateBatch st b).1, (aggregateBatch st b).2.1] st.thisAddr
                    processed := false })
          lastDecryptionRequestTime := mapSet st.lastDecryptionRequestTime s now
          batchAssets := mapSet st.batchAssets
            (st.currentBatchId, st.assetCountInBatch st.currentBatchId)
            (some { encryptedArea := a
                    encryptedHealthIndex := h
                    encryptedCarbonSequestration := c
                    encryptedBiodiversityIndex := bio
                    ownerAddress := s2 })
          assetCountInBatch := mapSet st.assetCountInBatch st.currentBatchId
            (st.assetCountInBatch st.currentBatchId + 1)
          lastSubmissionTime := mapSet st.lastSubmissionTime s2 n2 } :
        ContractState) b i = readAsset st b i := by
    intro i hi
    show (mapSet st.batchAssets
        (st.currentBatchId, st.assetCountInBatch st.currentBatchId)
        (some { encryptedArea := a
                encryptedHealthIndex := h
                encryptedCarbonSequestration := c
                encryptedBiodiversityIndex := bio
                ownerAddress := s2 }) (b, i)).getD defaultAsset =
      (st.batchAssets (b, i)).getD defaultAsset
    rw [hb]
    have hne2 : ((b, i) : Nat × Nat) ≠ (b, st.assetCountInBatch b) := by
      intro he
      injection he with he1 he2
      omega
    rw [mapSet_ne _ _ _ hne2]
  have hreadn : readAsset ({ st with
      decryptionContexts := mapSet st.decryptionContexts rid
        (some { batchId := b
                stateHash := HashVal.keccak
                  [(aggregateBatch st b).1, (aggregateBatch st b).2.1] st.thisAddr
                processed := false })
      lastDecryptionRequestTime := mapSet st.lastDecryptionRequestTime s now
      batchAssets := mapSet st.batchAssets
        (st.currentBatchId, st.assetCountInBatch st.currentBatchId)
        (some { encryptedArea := a
                encryptedHealthIndex := h
                encryptedCarbonSequestration := c
                encryptedBiodiversityIndex := bio
                ownerAddress := s2 })
      assetCountInBatch := mapSet st.assetCountInBatch st.currentBatchId
        (st.assetCountInBatch st.currentBatchId + 1)
      lastSubmissionTime := mapSet st.lastSubmissionTime s2 n2 } :
    ContractState) b (st.assetCountInBatch b) =
      { encryptedArea := a
        encryptedHealthIndex := h
        encryptedCarbonSequestration := c
        encryptedBiodiversityIndex := bio
        ownerAddress := s2 } := by
    show (mapSet st.batchAssets
        (st.currentBatchId, st.assetCountInBatch st.currentBatchId)
        (some { encryptedArea := a
                encryptedHealthIndex := h
                encryptedCarbonSequestration := c
                encryptedBiodiversityIndex := bio
                ownerAddress := s2 }) (b, st.assetCountInBatch b)).getD defaultAsset = _
    rw [hb, mapSet_self]
    rfl
  have hlist2 : assetsList ({ st with
      decryptionContexts := mapSet st.decryptionContexts rid
        (some { batchId := b
                stateHash := HashVal.keccak
                  [(aggregateBatch st b).1, (aggregateBatch st b).2.1] st.thisAddr
                processed := false })
      lastDecryptionRequestTime := mapSet st.lastDecryptionRequestTime s now
      batchAssets := mapSet st.batchAssets
        (st.currentBatchId, st.assetCountInBatch st.currentBatchId)
        (some { encryptedArea := a
                encryptedHealthIndex := h
                encryptedCarbonSequestration := c
                encryptedBiodiversityIndex := bio
                ownerAddress := s2 })
      assetCountInBatch := mapSet st.assetCountInBatch st.currentBatchId
        (st.assetCountInBatch st.currentBatchId + 1)
      lastSubmissionTime := mapSet st.lastSubmissionTime s2 n2 } :
    ContractState) b = assetsList st b ++
      [{ encryptedArea := a
         encryptedHealthIndex := h
         encryptedCarbonSequestration := c
         encryptedBiodiversityIndex := bio
         ownerAddress := s2 }] := by
    unfold assetsList
    rw [hc2, List.range_succ, List.map_append]
    rw [range_map_congr (st.assetCountInBatch b) _ _ hread2]
    simp only [List.map_cons, List.map_nil]
    rw [hreadn]
  have hfold_fst : (aggFold (assetsList st b)).1 ≠ Handle.uninit := by
    rw [assetsList_cons st b hcnt]
    unfold aggFold
    rw [List.foldl_cons]
    have hseed : aggStep (Handle.uninit, Handle.uninit, false) (readAsset st b 0) =
        ((readAsset st b 0).encryptedArea,
         (readAsset st b 0).encryptedCarbonSequestration, true) := by
      simp [aggStep, FHE.isInit]
    rw [hseed]
    exact foldl_aggStep_fst_ne _ _ h0
  have hfold_sd : (aggFold (assetsList st b)).2.2 = true := by
    have hx := aggregate_seeded_of_pos st b hcnt
    rwa [aggregateBatch_eq_fold] at hx
  have hB : aggregateBatch ({ st with
      decryptionContexts := mapSet st.decryptionContexts rid
        (some { batchId := b
                stateHash := HashVal.keccak
                  [(aggregateBatch st b).1, (aggregateBatch st b).2.1] st.thisAddr
                processed := false })
      lastDecryptionRequestTime := mapSet st.lastDecryptionRequestTime s now
      batchAssets := mapSet st.batchAssets
        (st.currentBatchId, st.assetCountInBatch st.currentBatchId)
        (some { encryptedArea := a
                encryptedHealthIndex := h
                encryptedCarbonSequestration := c
                encryptedBiodiversityIndex := bio
                ownerAddress := s2 })
      assetCountInBatch := mapSet st.assetCountInBatch st.currentBatchId
        (st.assetCountInBatch st.currentBatchId + 1)
      lastSubmissionTime := mapSet st.lastSubmissionTime s2 n2 } :
    ContractState) b =
      (Handle.add (aggregateBatch st b).1 a,
       Handle.add (aggregateBatch st b).2.1 c, true) := by
    rw [aggregateBatch_eq_fold, hlist2, aggFold_append_one _ _ hfold_fst hfold_sd]
    rw [aggregateBatch_eq_fold]
  refine callback_state_mismatch _ rid
    { batchId := b
      stateHash := HashVal.keccak
        [(aggregateBatch st b).1, (aggregateBatch st b).2.1] st.thisAddr
      processed := false } (mapSet_self _ _ _) rfl ?_ ?_ c1 c2 sig
  · show (aggregateBatch ({ st with
        decryptionContexts := mapSet st.decryptionContexts rid
          (some { batchId := b
                  stateHash := HashVal.keccak
                    [(aggregateBatch st b).1, (aggregateBatch st b).2.1] st.thisAddr
                  processed := false })
        lastDecryptionRequestTime := mapSet st.lastDecryptionRequestTime s now
        batchAssets := mapSet st.batchAssets
          (st.currentBatchId, st.assetCountInBatch st.currentBatchId)
          (some { encryptedArea := a
                  encryptedHealthIndex := h
                  encryptedCarbonSequestration := c
                  encryptedBiodiversityIndex := bio
                  ownerAddress := s2 })
        assetCountInBatch := mapSet st.assetCountInBatch st.currentBatchId
          (st.assetCountInBatch st.currentBatchId + 1)
        lastSubmissionTime := mapSet st.lastSubmissionTime s2 n2 } :
      ContractState) b).2.2 = true
    rw [hB]
  · show HashVal.keccak
        [(aggregateBatch ({ st with
            decryptionContexts := mapSet st.decryptionContexts rid
              (some { batchId := b
                      stateHash := HashVal.keccak
                        [(aggregateBatch st b).1, (aggregateBatch st b).2.1] st.thisAddr
                      processed := false })
            lastDecryptionRequestTime := mapSet st.lastDecryptionRequestTime s now
            batchAssets := mapSet st.batchAssets
              (st.currentBatchId, st.assetCountInBatch st.currentBatchId)
              (some { encryptedArea := a
                      encryptedHealthIndex := h
                      encryptedCarbonSequestration := c
                      encryptedBiodiversityIndex := bio
                      ownerAddress := s2 })
            assetCountInBatch := mapSet st.assetCountInBatch st.currentBatchId
              (st.assetCountInBatch st.currentBatchId + 1)
            lastSubmissionTime := mapSet st.lastSubmissionTime s2 n2 } :
          ContractState) b).1,
         (aggregateBatch ({ st with
            decryptionContexts := mapSet st.decryptionContexts rid
              (some { batchId := b
                      stateHash := HashVal.keccak
                        [(aggregateBatch st b).1, (aggregateBatch st b).2.1] st.thisAddr
                      processed := false })
            lastDecryptionRequestTime := mapSet st.lastDecryptionRequestTime s now
            batchAssets := mapSet st.batchAssets
              (st.currentBatchId, st.assetCountInBatch st.currentBatchId)
              (some { encryptedArea := a
                      encryptedHealthIndex := h
                      encryptedCarbonSequestration := c
                      encryptedBiodiversityIndex := bio
                      ownerAddress := s2 })
            assetCountInBatch := mapSet st.assetCountInBatch st.currentBatchId
              (st.assetCountInBatch st.currentBatchId + 1)
            lastSubmissionTime := mapSet st.lastSubmissionTime s2 n2 } :
          ContractState) b).2.1] st.thisAddr ≠
      HashVal.keccak [(aggregateBatch st b).1, (aggregateBatch st b).2.1] st.thisAddr
    rw [hB]
    intro he
    rw [HashVal.keccak.injEq] at he
    obtain ⟨hl, _⟩ := he
    injection hl with h1 _
    exact add_ne_left _ _ h1

/-- Witness for C1: after deploy, provider registration, one submission and
a decryption request, a successful callback followed by a repeated
callback for the same request id yields `ReplayAttempt` with no state
change. -/
theorem c1_at_most_once_finalization_witness :
    exec (run (stepState (run (initState 1 7)
        [Call.addProvider 1 2,
         Call.submitAsset 2 100 (Handle.ct 1) (Handle.ct 2) (Handle.ct 3) (Handle.ct 4),
         Call.requestBatchSummaryDecryption 2 150 5 1])
        (Call.myCallback 5 10 20 true)) [])
      (Call.myCallback 5 0 0 true) =
    (run (stepState (run (initState 1 7)
        [Call.addProvider 1 2,
         Call.submitAsset 2 100 (Handle.ct 1) (Handle.ct 2) (Handle.ct 3) (Handle.ct 4),
         Call.requestBatchSummaryDecryption 2 150 5 1])
        (Call.myCallback 5 10 20 true)) [], some Err.ReplayAttempt, []) :=
  (c1_at_most_once_finalization (run (initState 1 7)
      [Call.addProvider 1 2,
       Call.submitAsset 2 100 (Handle.ct 1) (Handle.ct 2) (Handle.ct 3) (Handle.ct 4),
       Call.requestBatchSummaryDecryption 2 150 5 1]) 5 10 20 true (by decide)).2.2
    [] (by intro c hc; cases hc) 0 0 true

/-- Witness for C3: at a state holding a pending request whose batch
received one more asset afterwards, the callback lands in the
state-mismatch branch. -/
theorem c3_callback_check_order_witness :
    exec (run (initState 1 7)
        [Call.addProvider 1 2,
         Call.submitAsset 2 100 (Handle.ct 1) (Handle.ct 2) (Handle.ct 3) (Handle.ct 4),
         Call.requestBatchSummaryDecryption 2 150 5 1,
         Call.submitAsset 2 200 (Handle.ct 5) (Handle.ct 6) (Handle.ct 7) (Handle.ct 8)])
      (Call.myCallback 5 10 20 true) =
    (run (initState 1 7)
        [Call.addProvider 1 2,
         Call.submitAsset 2 100 (Handle.ct 1) (Handle.ct 2) (Handle.ct 3) (Handle.ct 4),
         Call.requestBatchSummaryDecryption 2 150 5 1,
         Call.submitAsset 2 200 (Handle.ct 5) (Handle.ct 6) (Handle.ct 7) (Handle.ct 8)],
     some Err.StateMismatch, []) :=
  ((c3_callback_check_order (run (initState 1 7)
      [Call.addProvider 1 2,
       Call.submitAsset 2 100 (Handle.ct 1) (Handle.ct 2) (Handle.ct 3) (Handle.ct 4),
       Call.requestBatchSummaryDecryption 2 150 5 1,
       Call.submitAsset 2 200 (Handle.ct 5) (Handle.ct 6) (Handle.ct 7) (Handle.ct 8)])
      5 10 20).2.1 (by decide) (by decide) (by decide)) true

/-- Witness for C9: the deployment state has no context for request id 5,
and the callback on it reverts with `InvalidBatchId`. -/
theorem c9_unknown_request_id_witness :
    exec (initState 1 7) (Call.myCallback 5 0 0 true) =
      (initState 1 7, some Err.InvalidBatchId, []) :=
  c9_unknown_request_id (initState 1 7) 5 (Reachable.init 1 7) (by decide) 0 0 true

/-- Witness for C6: after a submission at time 100 with the default 60s
cooldown, a second submission at time 120 by the same provider reverts
with `CooldownActive` and no state change. -/
theorem c6_cooldown_enforcement_witness :
    exec (run (initState 1 7)
        [Call.addProvider 1 2,
         Call.submitAsset 2 100 (Handle.ct 1) (Handle.ct 2) (Handle.ct 3) (Handle.ct 4)])
      (Call.submitAsset 2 120 (Handle.ct 1) (Handle.ct 1) (Handle.ct 1) (Handle.ct 1)) =
    (run (initState 1 7)
        [Call.addProvider 1 2,
         Call.submitAsset 2 100 (Handle.ct 1) (Handle.ct 2) (Handle.ct 3) (Handle.ct 4)],
     some Err.CooldownActive, []) :=
  (c6_cooldown_enforcement (run (initState 1 7)
      [Call.addProvider 1 2,
       Call.submitAsset 2 100 (Handle.ct 1) (Handle.ct 2) (Handle.ct 3) (Handle.ct 4)])
    2 120 (Handle.ct 1) (Handle.ct 1) (Handle.ct 1) (Handle.ct 1) 5 1
    (by decide) (by decide) (by decide) (by decide)).2.2.1 (by decide)

/-- Witness for C7: closing batch 1 right after deployment succeeds, and
after a subsequent (rejected) submission attempt batch 1 is still closed
with an unchanged asset count. -/
theorem c7_closed_batch_immutability_witness :
    (run (stepState (initState 1 7) (Call.closeBatch 1 1))
        [Call.submitAsset 1 100 (Handle.ct 1) (Handle.ct 1) (Handle.ct 1) (Handle.ct 1)]).isBatchOpen 1 = false ∧
    (run (stepState (initState 1 7) (Call.closeBatch 1 1))
        [Call.submitAsset 1 100 (Handle.ct 1) (Handle.ct 1) (Handle.ct 1) (Handle.ct 1)]).assetCountInBatch 1 =
      (initState 1 7).assetCountInBatch 1 :=
  (c7_closed_batch_immutability (initState 1 7) (Reachable.init 1 7)).2 1 1 (by decide)
    [Call.submitAsset 1 100 (Handle.ct 1) (Handle.ct 1) (Handle.ct 1) (Handle.ct 1)]

/-- Witness for C8: a successful submission from a reachable state writes
the record at index 0 of batch 1 and bumps that count to 1. -/
theorem c8_sequential_index_invariant_witness :
    (stepState (run (initState 1 7) [Call.addProvider 1 2])
        (Call.submitAsset 2 100 (Handle.ct 1) (Handle.ct 2) (Handle.ct 3) (Handle.ct 4))).batchAssets
      ((run (initState 1 7) [Call.addProvider 1 2]).currentBatchId,
       (run (initState 1 7) [Call.addProvider 1 2]).assetCountInBatch
         (run (initState 1 7) [Call.addProvider 1 2]).currentBatchId) =
      some { encryptedArea := Handle.ct 1
             encryptedHealthIndex := Handle.ct 2
             encryptedCarbonSequestration := Handle.ct 3
             encryptedBiodiversityIndex := Handle.ct 4
             ownerAddress := 2 } :=
  ((c8_sequential_index_invariant (run (initState 1 7) [Call.addProvider 1 2])
      (Reachable.step (initState 1 7) (Call.addProvider 1 2) (Reachable.init 1 7))).2.1
    2 100 (Handle.ct 1) (Handle.ct 2) (Handle.ct 3) (Handle.ct 4) (by decide)).1

/-- Witness for C10: at deployment the owner may close the (still open)
batch 1. -/
theorem c10_superseded_batches_witness :
    (exec (initState 1 7) (Call.closeBatch 1 1)).2.1 = none :=
  (c10_superseded_batches (initState 1 7)).2.2.2 1 1 (by decide) (by decide)

/-- Witness for the amended C2: with genuine (initialized) handles, a
submission landing between the request and its callback makes the
callback fail with `StateMismatch`. -/
theorem c2_staleness_rejection_amended_witness :
    exec (stepState (stepState (run (initState 1 7)
          [Call.addProvider 1 2,
           Call.submitAsset 2 100 (Handle.ct 1) (Handle.ct 2) (Handle.ct 3) (Handle.ct 4)])
        (Call.requestBatchSummaryDecryption 2 150 5 1))
        (Call.submitAsset 2 200 (Handle.ct 5) (Handle.ct 6) (Handle.ct 7) (Handle.ct 8)))
      (Call.myCallback 5 10 20 true) =
    (stepState (stepState (run (initState 1 7)
          [Call.addProvider 1 2,
           Call.submitAsset 2 100 (Handle.ct 1) (Handle.ct 2) (Handle.ct 3) (Handle.ct 4)])
        (Call.requestBatchSummaryDecryption 2 150 5 1))
        (Call.submitAsset 2 200 (Handle.ct 5) (Handle.ct 6) (Handle.ct 7) (Handle.ct 8)),
     some Err.StateMismatch, []) :=
  c2_staleness_rejection_amended (run (initState 1 7)
      [Call.addProvider 1 2,
       Call.submitAsset 2 100 (Handle.ct 1) (Handle.ct 2) (Handle.ct 3) (Handle.ct 4)])
    2 150 5 1 (by decide) (by decide) (by decide)
    2 200 (Handle.ct 5) (Handle.ct 6) (Handle.ct 7) (Handle.ct 8) (by decide) 10 20 true

/-- Witness for the amended C4: in a paused reachable state, a decryption
request reverts with `PausedError` and no state change. -/
theorem c4_pause_gating_amended_witness :
    exec (run (initState 1 7) [Call.setPaused 1 true])
      (Call.requestBatchSummaryDecryption 2 100 5 1) =
    (run (initState 1 7) [Call.setPaused 1 true], some Err.PausedError, []) :=
  (c4_pause_gating_amended (run (initState 1 7) [Call.setPaused 1 true]) (by decide)).2.1
    2 100 5 1

/-- Witness for the amended C5: with a one-asset batch of initialized
handles, the code's aggregation agrees with the seed-then-add fold of the
spec and sets the seeded flag. -/
theorem c5_aggregation_amended_witness :
    specAggregate (assetsList (run (initState 1 7)
        [Call.addProvider 1 2,
         Call.submitAsset 2 100 (Handle.ct 1) (Handle.ct 2) (Handle.ct 3) (Handle.ct 4)]) 1) =
      some ((aggregateBatch (run (initState 1 7)
          [Call.addProvider 1 2,
           Call.submitAsset 2 100 (Handle.ct 1) (Handle.ct 2) (Handle.ct 3) (Handle.ct 4)]) 1).1,
        (aggregateBatch (run (initState 1 7)
          [Call.addProvider 1 2,
           Call.submitAsset 2 100 (Handle.ct 1) (Handle.ct 2) (Handle.ct 3) (Handle.ct 4)]) 1).2.1) ∧
    (aggregateBatch (run (initState 1 7)
        [Call.addProvider 1 2,
         Call.submitAsset 2 100 (Handle.ct 1) (Handle.ct 2) (Handle.ct 3) (Handle.ct 4)]) 1).2.2 = true :=
  (c5_aggregation_amended (run (initState 1 7)
      [Call.addProvider 1 2,
       Call.submitAsset 2 100 (Handle.ct 1) (Handle.ct 2) (Handle.ct 3) (Handle.ct 4)])
    2 150 5 1).2.1 (by decide) (by decide)
